import Mathlib

/-!
mqtt.fabric.golang — topic model, status protocol and inbound dispatch

A shallow embedding of `fabric.go`, `mqtt_fabric.go` and `bluemix.go`.

Conventions of the embedding

* Go strings are Lean `String`s. The only separator the program ever splits on is the
  one-byte string `"/"`; since that byte never occurs inside a multi-byte UTF-8 sequence,
  splitting the byte string and splitting the character sequence agree.
* `ClassType` and `Status` are Go `int`s with named constants; they are `Int` here so that
  values outside the named constants stay expressible.
* A slice index read `tokenizer[i]` faults in Go when `i` is out of range. Reads are
  `Option`-valued here (`none` = run-time fault) and the deferred `recover()` of
  `onMessage` is the single place where a fault is turned into an outcome.
* Callback slots hold handler identifiers (`Nat`); invoking a handler is recorded as a
  `Call` in the trace returned by `onMessage`.
* `json.Marshal` is modelled for the one struct it is applied to in `StatusMessage`: a JSON
  value is built from the struct and serialised compactly. `seconds` is an `int64`; it is
  only ever printed, so it is an unbounded `Int` here.
* `bluemix.go`: a message text is given by what `json.Unmarshal` reads in it, `none` for a
  text that is not JSON and otherwise the document (`Doc`), numbers with the exact value of
  their literal. Decoding a document into Go values (`Any`) rounds each number to the nearest
  double and fails on a number out of range. A Go map is the list of its entries in the order
  `range` visits them. `int` is 64 bits wide.
-/

namespace mqttfabric

/-! ## strings.Split with a one-character separator -/

/-- Segments of a character sequence between occurrences of `sep`
(`strings.Split(s, string(sep))`): always at least one segment. -/
def splitChars (sep : Char) : List Char → List (List Char)
  | [] => [[]]
  | c :: cs =>
    if c = sep then [] :: splitChars sep cs
    else
      match splitChars sep cs with
      | [] => [[c]]
      | seg :: rest => (c :: seg) :: rest

/-- The call `strings.Split(s, "/")` for a one-character separator. -/
def Split (s : String) (sep : Char) : List String :=
  (splitChars sep s.data).map String.mk

/-! ## fabric.go -/

abbrev ClassType := Int

def DEVICE : ClassType := 1
def CONTROLLER : ClassType := 2

abbrev Status := Int

def FABRIC_ONLINE : Status := 1
def FABRIC_OFFLINE : Status := 2
def FABRIC_DISCONNECTED : Status := 3

def FABRIC_SYS : String := "sysctl"
def FABRIC_CMD_STATUS : String := "status"

structure Fabric where
  RootTopic : String
  NodeName : String
  PlatformID : String
  ActorID : String
  ActorPlatformID : String
  TaskID : String
  ClassType : ClassType
  deriving DecidableEq, Repr

def FabricInitialize (rootTopic nodename platformID : String) (classType : ClassType) : Fabric :=
  { ClassType := classType
    RootTopic := rootTopic
    NodeName := nodename
    PlatformID := platformID
    ActorID := nodename
    ActorPlatformID := platformID
    TaskID := "task_id" }

def Fabric.DeviceOnrampTopic (f : Fabric) (serviceID feedID : String) : String :=
  f.RootTopic ++ "/" ++ f.NodeName ++ "/$feeds/$onramp/" ++ f.PlatformID ++ "/" ++ serviceID
    ++ "/" ++ feedID

def Fabric.DeviceOfframpSubscription (f : Fabric)
    (nodename actorID actorPlatformID taskID platformID serviceID feedID : String) : String :=
  f.RootTopic ++ "/" ++ nodename ++ "/$feeds/$offramp/" ++ actorID ++ "/" ++ actorPlatformID
    ++ "/" ++ taskID ++ "/" ++ platformID ++ "/" ++ serviceID ++ "/" ++ feedID

def Fabric.CtrlOfframpTopic (f : Fabric)
    (nodename taskID platformID serviceID feedID : String) : String :=
  f.RootTopic ++ "/" ++ nodename ++ "/$feeds/$offramp/" ++ f.ActorID ++ "/" ++ f.ActorPlatformID
    ++ "/" ++ taskID ++ "/" ++ platformID ++ "/" ++ serviceID ++ "/" ++ feedID

def Fabric.CtrlOnrampSubscription (f : Fabric)
    (nodename platformID serviceID feedID : String) : String :=
  f.RootTopic ++ "/" ++ nodename ++ "/$feeds/$onramp/" ++ platformID ++ "/" ++ serviceID
    ++ "/" ++ feedID

/-! ## encoding/json as used by `StatusMessage` -/

/-- JSON values the status body is made of. -/
inductive JSON where
  | null
  | num (n : Int)
  | str (s : String)
  | obj (members : List (String × JSON))

/-- Lower-case hexadecimal digit of a number below 16. -/
def hexDigit (n : Nat) : Char :=
  if n < 10 then Char.ofNat (48 + n) else Char.ofNat (87 + n)

/-- How `encoding/json` (Go 1.6 to 1.21) writes one character inside a string literal in
HTML-safe mode, the default of `json.Marshal`: quote and backslash are backslash-escaped; newline, carriage
return and tab get their short escapes; other control characters and `<`, `>`, `&` are
written as a six-character `u00XX` escape; U+2028 and U+2029 as `u2028` and `u2029`. -/
def escapeChar (c : Char) : List Char :=
  if c = '\\' ∨ c = '"' then ['\\', c]
  else if c = '\n' then ['\\', 'n']
  else if c = '\r' then ['\\', 'r']
  else if c = '\t' then ['\\', 't']
  else if c.toNat < 32 ∨ c = '<' ∨ c = '>' ∨ c = '&' then
    ['\\', 'u', '0', '0', hexDigit (c.toNat / 16), hexDigit (c.toNat % 16)]
  else if c.toNat = 0x2028 ∨ c.toNat = 0x2029 then
    ['\\', 'u', '2', '0', '2', hexDigit (c.toNat % 16)]
  else [c]

/-- A JSON string literal. -/
def quote (s : String) : String :=
  "\"" ++ String.mk (s.data.flatMap escapeChar) ++ "\""

/-- Decimal rendering of an `int64`. -/
def formatInt (n : Int) : String :=
  match n with
  | Int.ofNat k => Nat.repr k
  | Int.negSucc k => "-" ++ Nat.repr (k + 1)

mutual
/-- Compact serialisation, members in the order given. -/
def JSON.encode : JSON → String
  | .null => "null"
  | .num n => formatInt n
  | .str s => quote s
  | .obj ms => "\x7b" ++ encodeMembers ms ++ "\x7d"
/-- The members of an object, comma separated. -/
def encodeMembers : List (String × JSON) → String
  | [] => ""
  | [(k, v)] => quote k ++ ":" ++ v.encode
  | (k, v) :: m :: rest => quote k ++ ":" ++ v.encode ++ "," ++ encodeMembers (m :: rest)
end

/-- The local struct `Data` of `StatusMessage`; the JSON keys of its fields are, in order,
`_type`, `status`, `uptime`, `nodename`, `platform_id`, `class`, none of them `omitempty`.
`Uptime` is a `*int64`: `none` is the nil pointer. -/
structure Data where
  Type_ : String
  Status : String
  Uptime : Option Int
  Nodename : String
  PlatformID : String
  Class : String
  deriving DecidableEq, Repr

/-- The local struct `D` of `StatusMessage`, JSON key `d`. -/
structure D where
  Data : Data
  deriving DecidableEq, Repr

/-- The JSON value `encoding/json` builds for a `D`: every field is emitted, in declaration
order, under its tag; a nil pointer is emitted as `null`. -/
def D.toJSON (d : D) : JSON :=
  .obj [("d", .obj
    [ ("_type", .str d.Data.Type_),
      ("status", .str d.Data.Status),
      ("uptime", match d.Data.Uptime with
        | none => .null
        | some n => .num n),
      ("nodename", .str d.Data.Nodename),
      ("platform_id", .str d.Data.PlatformID),
      ("class", .str d.Data.Class) ])]

/-- The call `json.Marshal(jsonMsg)`. It cannot fail on a `D`: the struct holds only strings
and an optional integer. -/
def Marshal (d : D) : String :=
  d.toJSON.encode

/-- The method `StatusMessage`: the status topic and the JSON body, or two empty strings. -/
def Fabric.StatusMessage (f : Fabric) (fabricStatus : Status) (seconds : Int) :
    String × String :=
  let topic := f.RootTopic ++ "/" ++ f.NodeName ++ "/$commands/$clients/" ++ FABRIC_SYS ++ "/"
    ++ f.PlatformID ++ "/" ++ FABRIC_CMD_STATUS
  let jsonMsg : D :=
    ⟨{ Type_ := "status", Status := "", Uptime := none, Nodename := f.NodeName,
       PlatformID := f.PlatformID, Class := "" }⟩
  let withClass : Option D :=
    if f.ClassType = DEVICE then some ⟨{ jsonMsg.Data with Class := "device" }⟩
    else if f.ClassType = CONTROLLER then some ⟨{ jsonMsg.Data with Class := "controller" }⟩
    else none
  match withClass with
  | none => ("", "")
  | some jsonMsg =>
    let withStatus : Option D :=
      if fabricStatus = FABRIC_ONLINE then
        some ⟨{ jsonMsg.Data with Status := "online", Uptime := some seconds }⟩
      else if fabricStatus = FABRIC_OFFLINE then
        some ⟨{ jsonMsg.Data with Status := "offline", Uptime := some seconds }⟩
      else if fabricStatus = FABRIC_DISCONNECTED then
        some ⟨{ jsonMsg.Data with Status := "disconnected", Uptime := none }⟩
      else none
    match withStatus with
    | none => ("", "")
    | some jsonMsg => (topic, Marshal jsonMsg)

/-! ## mqtt_fabric.go : the inbound message handler -/

set_option linter.dupNamespace false

/-- The fields of `MqttFabric` the handler reads: the identity and the four callback slots
(`none` is Go's `nil`). -/
structure MqttFabric where
  F : Fabric
  OnConnect : Option Nat
  OnDisconnect : Option Nat
  OnOnramp : Option Nat
  OnOfframp : Option Nat
  deriving DecidableEq, Repr

def MqttFabric.SetOnConnectHandler (m : MqttFabric) (handler : Option Nat) : MqttFabric :=
  { m with OnConnect := handler }

def MqttFabric.SetOnDisconnectHandler (m : MqttFabric) (handler : Option Nat) : MqttFabric :=
  { m with OnDisconnect := handler }

def MqttFabric.SetOnOnrampHandler (m : MqttFabric) (handler : Option Nat) : MqttFabric :=
  { m with OnOnramp := handler }

def MqttFabric.SetOnOfframpHandler (m : MqttFabric) (handler : Option Nat) : MqttFabric :=
  { m with OnOfframp := handler }

/-- One invocation of a registered callback, with the arguments it received. -/
inductive Call where
  | onramp (handler : Nat) (nodename platformID serviceID feedID msg : String)
  | offramp (handler : Nat)
      (nodename actorID actorPlatformID taskID platformID serviceID feedID msg : String)
  deriving DecidableEq, Repr

/-- The arm of the classification in `onMessage` that a topic reached, with the fields the
arm extracted. `faulted` is the deferred `recover()` arm: an index read was out of range. -/
inductive Branch where
  | commands (nodename actorID platformID cmd : String)
  | onramp (nodename platformID serviceID feedID : String)
  | offramp (nodename actorID actorPlatformID taskID platformID serviceID feedID : String)
  | invalidFeed
  | other
  | faulted
  deriving DecidableEq, Repr

structure Outcome where
  branch : Branch
  calls : List Call
  deriving DecidableEq, Repr

/-- Go's short-circuit `a && b` where evaluating `b` may fault. -/
def andThen (a : Bool) (b : Option Bool) : Option Bool :=
  if a then b else some false

/-- The body of `onMessage`; `none` is an index-out-of-range fault. -/
def onMessageBody (m : MqttFabric) (topic payload : String) : Option Outcome := do
  let tokenizer := Split topic '/'
  let count := tokenizer.length
  let t2 ← tokenizer[2]?
  if t2 = "$commands" then
    let nodename ← tokenizer[1]?
    let actorID ← tokenizer[4]?
    let platformID ← tokenizer[5]?
    let cmd ← tokenizer[6]?
    pure ⟨.commands nodename actorID platformID cmd, []⟩
  else if t2 = "$feeds" then
    let isOnramp ← andThen (decide (count > 6)) ((tokenizer[3]?).map (fun t => decide (t = "$onramp")))
    if isOnramp then
      let nodename ← tokenizer[1]?
      let platformID ← tokenizer[4]?
      let serviceID ← tokenizer[5]?
      let feedID ← tokenizer[6]?
      let calls : List Call :=
        match m.OnOnramp with
        | some h =>
          if m.F.ClassType = CONTROLLER then
            [Call.onramp h nodename platformID serviceID feedID payload]
          else if m.F.ClassType = DEVICE ∧ nodename ≠ m.F.NodeName then
            [Call.onramp h nodename platformID serviceID feedID payload]
          else []
        | none => []
      pure ⟨.onramp nodename platformID serviceID feedID, calls⟩
    else
      let isOfframp ← andThen (decide (count ≥ 10)) ((tokenizer[3]?).map (fun t => decide (t = "$offramp")))
      if isOfframp then
        let nodename ← tokenizer[1]?
        let actorID ← tokenizer[4]?
        let actorPlatformID ← tokenizer[5]?
        let taskID ← tokenizer[6]?
        let platformID ← tokenizer[7]?
        let serviceID ← tokenizer[8]?
        let feedID ← tokenizer[9]?
        let calls : List Call :=
          match m.OnOfframp with
          | some h =>
            if m.F.ClassType = DEVICE then
              [Call.offramp h nodename actorID actorPlatformID taskID platformID serviceID feedID
                payload]
            else if m.F.ClassType = CONTROLLER ∧ nodename ≠ m.F.NodeName then
              [Call.offramp h nodename actorID actorPlatformID taskID platformID serviceID feedID
                payload]
            else []
          | none => []
        pure ⟨.offramp nodename actorID actorPlatformID taskID platformID serviceID feedID, calls⟩
      else
        pure ⟨.invalidFeed, []⟩
  else
    pure ⟨.other, []⟩

/-- The default publish handler: the body under its deferred `recover()`. -/
def onMessage (m : MqttFabric) (topic payload : String) : Outcome :=
  match onMessageBody m topic payload with
  | some o => o
  | none => ⟨.faulted, []⟩

/-- Whether a trace entry is an invocation of the onramp callback. -/
def Call.isOnramp : Call → Bool
  | .onramp .. => true
  | .offramp .. => false

/-- Whether a trace entry is an invocation of the offramp callback. -/
def Call.isOfframp : Call → Bool
  | .onramp .. => false
  | .offramp .. => true

/-- The handler invoked the onramp callback. -/
def Outcome.invokesOnramp (o : Outcome) : Bool :=
  o.calls.any Call.isOnramp

/-- The handler invoked the offramp callback. -/
def Outcome.invokesOfframp (o : Outcome) : Bool :=
  o.calls.any Call.isOfframp

/-- The callback invocations of the `$onramp` arm, as a function of the extracted fields. -/
def onrampCalls (m : MqttFabric) (nodename platformID serviceID feedID payload : String) :
    List Call :=
  match m.OnOnramp with
  | some h =>
    if m.F.ClassType = CONTROLLER then [Call.onramp h nodename platformID serviceID feedID payload]
    else if m.F.ClassType = DEVICE ∧ nodename ≠ m.F.NodeName then
      [Call.onramp h nodename platformID serviceID feedID payload]
    else []
  | none => []

/-- The callback invocations of the `$offramp` arm, as a function of the extracted fields. -/
def offrampCalls (m : MqttFabric)
    (nodename actorID actorPlatformID taskID platformID serviceID feedID payload : String) :
    List Call :=
  match m.OnOfframp with
  | some h =>
    if m.F.ClassType = DEVICE then
      [Call.offramp h nodename actorID actorPlatformID taskID platformID serviceID feedID payload]
    else if m.F.ClassType = CONTROLLER ∧ nodename ≠ m.F.NodeName then
      [Call.offramp h nodename actorID actorPlatformID taskID platformID serviceID feedID payload]
    else []
  | none => []

/-! ## bluemix.go -/

/-- The dynamic values of Go's `interface{}` that occur here: `nil`, the scalars, and what
`json.Unmarshal` builds for arrays (`[]interface{}`) and objects
(`map[string]interface{}`). A `float64` is given by its exact value, a rational; the decoder
only ever builds the values `roundFloat64` returns. The entries of a map are listed in the
order in which `range` visits them. -/
inductive Any where
  | nil
  | int (n : Int)
  | float64 (x : ℚ)
  | bool (b : Bool)
  | string (s : String)
  | slice (xs : List Any)
  | map (entries : List (String × Any))

structure BlueMixObject where
  Type_ : String
  FeedID : String
  T : Any

/-- What a call of `BlueMixParse` ends in: the two return shapes, the process exit of
`log.Fatal`, or a run-time panic. -/
inductive ParseResult where
  | ok (b : BlueMixObject)
  | error (msg : String)
  | fatal
  | panic

def NewBlueMixObject : BlueMixObject :=
  { Type_ := "", FeedID := "", T := Any.nil }

def BlueMixObject.SetType (o : BlueMixObject) (valueType : String) : BlueMixObject :=
  { o with Type_ := valueType }

def BlueMixObject.SetFeedID (o : BlueMixObject) (feedID : String) : BlueMixObject :=
  { o with FeedID := feedID }

/-- The conversion `int(x)` of a `float64` on a 64-bit target: the fraction is discarded;
a value outside the `int` range gives the smallest `int` (amd64). -/
def float64ToInt (x : ℚ) : Int :=
  let t := Int.tdiv x.num x.den
  if -2 ^ 63 ≤ t ∧ t < 2 ^ 63 then t else -2 ^ 63

/-- The method `SetValue`: the receiver after the call, and whether the returned pointer is
the receiver (`true`) or `nil` (`false`). -/
def BlueMixObject.SetValue (o : BlueMixObject) (v : Any) : BlueMixObject × Bool :=
  match v with
  | .int n => ({ o with T := .int n }, true)
  | .float64 x => ({ o with T := .int (float64ToInt x) }, true)
  | .bool b => ({ o with T := .bool b }, true)
  | .string s => ({ o with T := .string s }, true)
  | .nil => ({ o with T := .nil }, true)
  | _ => (o, false)

def BlueMixObject.GetType (o : BlueMixObject) : String × Option String :=
  if o.Type_ = "" then ("", some "GetType: type has not been set") else (o.Type_, none)

def BlueMixObject.GetFeedID (o : BlueMixObject) : String × Option String :=
  if o.FeedID = "" then ("", some "GetType: feed id has not been set") else (o.FeedID, none)

def BlueMixObject.GetValueInt (o : BlueMixObject) : Int × Option String :=
  match o.T with
  | .int n => (n, none)
  | _ => (0, some "GetValueInt: value is not of type 'int'")

def BlueMixObject.GetValueBool (o : BlueMixObject) : Bool × Option String :=
  match o.T with
  | .bool b => (b, none)
  | _ => (false, some "GetValueBool: value is not of type 'bool'")

def BlueMixObject.GetValueString (o : BlueMixObject) : String × Option String :=
  match o.T with
  | .string s => (s, none)
  | _ => ("", some "GetValueString: value is not of type 'string'")

def isObject : Any → Bool
  | .map _ => true
  | _ => false

def isString : Any → Bool
  | .string _ => true
  | _ => false

def isBool : Any → Bool
  | .bool _ => true
  | _ => false

def isNumeric : Any → Bool
  | .float64 _ => true
  | _ => false

/-- The type assertion `v.(string)`; it is only evaluated under `isString(v)`. -/
def Any.assertString : Any → String
  | .string s => s
  | _ => ""

/-- A JSON text as the decoder reads it: the tree of its values. A number is given by the
exact value of its literal, a string by the characters it denotes, an object by its members
in the order of the text (a name may occur more than once). -/
inductive Doc where
  | null
  | bool (b : Bool)
  | num (x : ℚ)
  | str (s : String)
  | arr (xs : List Doc)
  | obj (members : List (String × Doc))

/-- The number of halvings that bring `n` below 2, `fuel` bounding the search. -/
def bitLength : Nat → Nat → Nat
  | 0, _ => 0
  | fuel + 1, n => if n < 2 then 0 else bitLength fuel (n / 2) + 1

/-- The position of the highest set bit of `n`: `2 ^ ilog2 n ≤ n < 2 ^ (ilog2 n + 1)` for
`n ≥ 1`. -/
def ilog2 (n : Nat) : Nat :=
  bitLength n n

/-- The call `strconv.ParseFloat(s, 64)` on a literal of exact value `x`, as `encoding/json`
uses it for a number read into an `interface{}`: the nearest double, a tie going to the even
mantissa, or `none` (a range error) when that would be infinite. A double is `m * 2 ^ e`
with `m < 2 ^ 53` and `-1074 ≤ e ≤ 971`; `fl` is the binary exponent of `|x|`. -/
def roundFloat64 (x : ℚ) : Option ℚ :=
  let n := x.num.natAbs
  let d := x.den
  if n = 0 then some 0
  else
    let a := ilog2 n
    let b := ilog2 d
    if b + 1025 ≤ a then none
    else
      let fl : Int := (a : Int) - (b : Int) - (if d * 2 ^ a ≤ n * 2 ^ b then 0 else 1)
      let e : Int := max (fl - 52) (-1074)
      let N := n * 2 ^ (-e).toNat
      let D := d * 2 ^ e.toNat
      let q := N / D
      let r := N % D
      let m :=
        if 2 * r < D then q else if D < 2 * r then q + 1 else if q % 2 = 0 then q else q + 1
      let s : Int := if x.num < 0 then -1 else 1
      if 972 ≤ e ∨ (e = 971 ∧ m = 2 ^ 53) then none
      else if 0 ≤ e then some ((s * ((m * 2 ^ e.toNat : Nat) : Int) : Int) : ℚ)
      else some (mkRat (s * (m : Int)) (2 ^ (-e).toNat))

/-- The entries of the Go map into which members are stored one after the other: a later
member replaces an earlier one of the same name. -/
def dedupKeys {α : Type} : List (String × α) → List (String × α)
  | [] => []
  | kv :: rest =>
    if rest.any (fun p => p.1 == kv.1) then dedupKeys rest else kv :: dedupKeys rest

mutual
/-- The Go value `json.Unmarshal` builds for a JSON value read into an `interface{}`, or
`none` when a number in it is out of the `float64` range. -/
def decodeValue : Doc → Option Any
  | .null => some .nil
  | .bool b => some (.bool b)
  | .num x => (roundFloat64 x).map Any.float64
  | .str s => some (.string s)
  | .arr xs => (decodeList xs).map Any.slice
  | .obj members => (decodeMembers members).map (fun es => Any.map (dedupKeys es))
/-- The elements of an array, decoded. -/
def decodeList : List Doc → Option (List Any)
  | [] => some []
  | x :: xs =>
    match decodeValue x, decodeList xs with
    | some v, some vs => some (v :: vs)
    | _, _ => none
/-- The members of an object, decoded. -/
def decodeMembers : List (String × Doc) → Option (List (String × Any))
  | [] => some []
  | (k, x) :: rest =>
    match decodeValue x, decodeMembers rest with
    | some v, some vs => some ((k, v) :: vs)
    | _, _ => none
end

/-- The call `json.Unmarshal([]byte(msg), &objmap)` with
`objmap map[string]*json.RawMessage`, on a message given by what the decoder reads: `none`
for a text that is not JSON, else the document. An object gives its members, `null` gives
the nil map, anything else is an error (`none`). A member whose value is `null` is stored as
the nil pointer (`none`), any other as a pointer to its raw text, which is not decoded
here. -/
def unmarshalRawMap : Option Doc → Option (List (String × Option Doc))
  | some (.obj members) =>
    some (dedupKeys (members.map fun kv =>
      (kv.1, match kv.2 with
        | .null => none
        | v => some v)))
  | some .null => some []
  | _ => none

/-- The call `json.Unmarshal(raw, &parsed)` with `parsed map[string]interface{}`: an object
all of whose members decode gives the map of its members, `null` the nil map, anything else
is an error (`none`). -/
def unmarshalMap : Doc → Option (List (String × Any))
  | .obj members => (decodeMembers members).map dedupKeys
  | .null => some []
  | _ => none

/-- The object under construction and the three flags of `BlueMixParse`. -/
structure ParseState where
  b : BlueMixObject
  gotType : Bool
  gotFeedID : Bool
  gotValue : Bool

/-- One turn of the inner loop `for key, value := range parsed`. -/
def parseField (st : ParseState) (kv : String × Any) : ParseState :=
  if kv.1 = "_type" ∧ isString kv.2 = true then
    { st with b := st.b.SetType kv.2.assertString, gotType := true }
  else if kv.1 = "feed_id" ∧ isString kv.2 = true then
    { st with b := st.b.SetFeedID kv.2.assertString, gotFeedID := true }
  else if kv.1 = "value" then
    { st with b := (st.b.SetValue kv.2).1, gotValue := true }
  else st

/-- The two ways in which `BlueMixParse` ends without returning. -/
inductive Abort where
  | fatal
  | panic

/-- The body of `if k == "d"`: dereference `objmap["d"]` (a missing key or a nil pointer
panics), decode it (`log.Fatal` on an error), run the inner loop. -/
def parseD (objmap : List (String × Option Doc)) (st : ParseState) :
    Except Abort ParseState :=
  match (objmap.lookup "d").join with
  | none => .error .panic
  | some raw =>
    match unmarshalMap raw with
    | none => .error .fatal
    | some parsed => .ok (parsed.foldl parseField st)

/-- The outer loop `for k := range objmap`, over the keys still to be visited. -/
def parseKeys (objmap : List (String × Option Doc)) :
    List (String × Option Doc) → ParseState → Except Abort ParseState
  | [], st => .ok st
  | kv :: rest, st =>
    if kv.1 = "d" then
      match parseD objmap st with
      | .error r => .error r
      | .ok st1 => parseKeys objmap rest st1
    else parseKeys objmap rest st

/-- The function `BlueMixParse`. The `return` that follows each `log.Fatal(err)` is never
reached: `log.Fatal` ends the process. -/
def BlueMixParse (msg : Option Doc) : ParseResult :=
  match unmarshalRawMap msg with
  | none => .fatal
  | some objmap =>
    match parseKeys objmap objmap ⟨NewBlueMixObject, false, false, false⟩ with
    | .error .fatal => .fatal
    | .error .panic => .panic
    | .ok st =>
      if st.gotType ∧ st.gotFeedID ∧ st.gotValue then .ok st.b
      else .error "BlueMixParse: missing one or more fields in JSON object"

/-- Whether a value is an array or an object, the two shapes `SetValue` has no case for. -/
def Any.isComposite : Any → Bool
  | .slice _ => true
  | .map _ => true
  | _ => false

/-- The integer obtained by discarding the fractional part of `x` (rounding towards zero). -/
def truncate (x : ℚ) : Int :=
  if 0 ≤ x then ⌊x⌋ else ⌈x⌉

/-- The payload a callback invocation received. -/
def Call.msg : Call → String
  | .onramp _ _ _ _ _ msg => msg
  | .offramp _ _ _ _ _ _ _ _ msg => msg

/-- The same callback invocation with another payload. -/
def Call.withMsg (payload : String) : Call → Call
  | .onramp h nodename platformID serviceID feedID _ =>
    .onramp h nodename platformID serviceID feedID payload
  | .offramp h nodename actorID actorPlatformID taskID platformID serviceID feedID _ =>
    .offramp h nodename actorID actorPlatformID taskID platformID serviceID feedID payload

/-- Whether an onramp callback is invoked, written as a function of what the decision is
said to depend on: whether a callback is registered, the role, the own node name, the
segment count and the segments 1 (nodename), 2 and 3 (the markers) of the topic. -/
def onrampDecision (registered : Bool) (role : ClassType) (own : String) (count : Nat)
    (seg1 seg2 seg3 : Option String) : Bool :=
  registered && decide (seg2 = some "$feeds") && decide (count > 6) &&
    decide (seg3 = some "$onramp") &&
    (decide (role = CONTROLLER) || (decide (role = DEVICE) && decide (seg1 ≠ some own)))

/-- Whether an offramp callback is invoked, as a function of the same data. -/
def offrampDecision (registered : Bool) (role : ClassType) (own : String) (count : Nat)
    (seg1 seg2 seg3 : Option String) : Bool :=
  registered && decide (seg2 = some "$feeds") && decide (count ≥ 10) &&
    decide (seg3 = some "$offramp") &&
    (decide (role = DEVICE) || (decide (role = CONTROLLER) && decide (seg1 ≠ some own)))

/-! ## Splitting a slash-joined topic -/

theorem splitChars_ne_nil (sep : Char) (l : List Char) : splitChars sep l ≠ [] := by
  cases l with
  | nil => simp [splitChars]
  | cons c cs =>
    simp only [splitChars]
    split
    · simp
    · split <;> simp

theorem splitChars_of_not_mem (sep : Char) (a : List Char) (h : sep ∉ a) :
    splitChars sep a = [a] := by
  induction a with
  | nil => rfl
  | cons c cs ih =>
    have hc : c ≠ sep := fun e => h (by simp [e])
    have hcs : sep ∉ cs := fun e => h (by simp [e])
    simp [splitChars, hc, ih hcs]

theorem splitChars_append_sep (sep : Char) (a rest : List Char) (h : sep ∉ a) :
    splitChars sep (a ++ sep :: rest) = a :: splitChars sep rest := by
  induction a with
  | nil => simp [splitChars]
  | cons c cs ih =>
    have hc : c ≠ sep := fun e => h (by simp [e])
    have hcs : sep ∉ cs := fun e => h (by simp [e])
    simp [splitChars, hc, ih hcs]

theorem Split_ne_nil (s : String) (sep : Char) : Split s sep ≠ [] := by
  simp [Split, splitChars_ne_nil]

theorem Split_append_sep (a rest : String) (h : '/' ∉ a.data) :
    Split (a ++ ("/" ++ rest)) '/' = a :: Split rest '/' := by
  have hs : ("/" : String).data = ['/'] := rfl
  simp [Split, String.data_append, hs, splitChars_append_sep _ _ _ h]

theorem Split_of_not_mem (a : String) (h : '/' ∉ a.data) : Split a '/' = [a] := by
  simp [Split, splitChars_of_not_mem _ _ h]

/-- The segments of an onramp topic whose fields are slash-free. -/
theorem Split_DeviceOnrampTopic (f : Fabric) (serviceID feedID : String)
    (hr : '/' ∉ f.RootTopic.data) (hn : '/' ∉ f.NodeName.data) (hp : '/' ∉ f.PlatformID.data)
    (hs : '/' ∉ serviceID.data) (hf : '/' ∉ feedID.data) :
    Split (f.DeviceOnrampTopic serviceID feedID) '/' =
      [f.RootTopic, f.NodeName, "$feeds", "$onramp", f.PlatformID, serviceID, feedID] := by
  have e : ("/$feeds/$onramp/" : String) = "/" ++ ("$feeds" ++ ("/" ++ ("$onramp" ++ "/"))) := by
    decide
  unfold Fabric.DeviceOnrampTopic
  rw [e]
  simp only [String.append_assoc]
  rw [Split_append_sep _ _ hr, Split_append_sep _ _ hn, Split_append_sep _ _ (by decide),
    Split_append_sep _ _ (by decide), Split_append_sep _ _ hp, Split_append_sep _ _ hs,
    Split_of_not_mem _ hf]

/-- The segments of an offramp topic whose fields are slash-free. -/
theorem Split_CtrlOfframpTopic (f : Fabric) (nodename taskID platformID serviceID feedID : String)
    (hr : '/' ∉ f.RootTopic.data) (ha : '/' ∉ f.ActorID.data)
    (hap : '/' ∉ f.ActorPlatformID.data) (hn : '/' ∉ nodename.data) (ht : '/' ∉ taskID.data)
    (hp : '/' ∉ platformID.data) (hs : '/' ∉ serviceID.data) (hf : '/' ∉ feedID.data) :
    Split (f.CtrlOfframpTopic nodename taskID platformID serviceID feedID) '/' =
      [f.RootTopic, nodename, "$feeds", "$offramp", f.ActorID, f.ActorPlatformID, taskID,
        platformID, serviceID, feedID] := by
  have e : ("/$feeds/$offramp/" : String) = "/" ++ ("$feeds" ++ ("/" ++ ("$offramp" ++ "/"))) := by
    decide
  unfold Fabric.CtrlOfframpTopic
  rw [e]
  simp only [String.append_assoc]
  rw [Split_append_sep _ _ hr, Split_append_sep _ _ hn, Split_append_sep _ _ (by decide),
    Split_append_sep _ _ (by decide), Split_append_sep _ _ ha, Split_append_sep _ _ hap,
    Split_append_sep _ _ ht, Split_append_sep _ _ hp, Split_append_sep _ _ hs,
    Split_of_not_mem _ hf]

/-! ## Round trips through the classification -/

/-- C1. Onramp round trip: when `RootTopic`, `NodeName`, `PlatformID`, `serviceID` and
`feedID` contain no `/`, the handler of any node, given the topic
`DeviceOnrampTopic(serviceID, feedID)` built by identity `f`, reaches the `$feeds/$onramp`
arm and extracts `(f.NodeName, f.PlatformID, serviceID, feedID)`. -/
theorem onramp_round_trip (f : Fabric) (m : MqttFabric) (serviceID feedID payload : String)
    (hr : '/' ∉ f.RootTopic.data) (hn : '/' ∉ f.NodeName.data) (hp : '/' ∉ f.PlatformID.data)
    (hs : '/' ∉ serviceID.data) (hf : '/' ∉ feedID.data) :
    (onMessage m (f.DeviceOnrampTopic serviceID feedID) payload).branch =
      Branch.onramp f.NodeName f.PlatformID serviceID feedID := by
  simp [onMessage, onMessageBody, Split_DeviceOnrampTopic f serviceID feedID hr hn hp hs hf,
    andThen]

theorem onramp_round_trip_witness :
    (onMessage ⟨FabricInitialize "home" "ctrl" "linux" CONTROLLER, none, none, some 1, none⟩
      ((FabricInitialize "home" "kitchen" "esp" DEVICE).DeviceOnrampTopic "text" "temp")
      "21").branch = Branch.onramp "kitchen" "esp" "text" "temp" :=
  onramp_round_trip (FabricInitialize "home" "kitchen" "esp" DEVICE)
    ⟨FabricInitialize "home" "ctrl" "linux" CONTROLLER, none, none, some 1, none⟩
    "text" "temp" "21" (by decide) (by decide) (by decide) (by decide) (by decide)

/-- C2. Offramp round trip: when `RootTopic`, `ActorID`, `ActorPlatformID` and the five
arguments contain no `/`, the handler of any node, given the topic
`CtrlOfframpTopic(nodename, taskID, platformID, serviceID, feedID)` built by identity `f`,
reaches the `$feeds/$offramp` arm and extracts the seven fields
`(nodename, f.ActorID, f.ActorPlatformID, taskID, platformID, serviceID, feedID)`. -/
theorem offramp_round_trip (f : Fabric) (m : MqttFabric)
    (nodename taskID platformID serviceID feedID payload : String)
    (hr : '/' ∉ f.RootTopic.data) (ha : '/' ∉ f.ActorID.data)
    (hap : '/' ∉ f.ActorPlatformID.data) (hn : '/' ∉ nodename.data) (ht : '/' ∉ taskID.data)
    (hp : '/' ∉ platformID.data) (hs : '/' ∉ serviceID.data) (hf : '/' ∉ feedID.data) :
    (onMessage m (f.CtrlOfframpTopic nodename taskID platformID serviceID feedID) payload).branch
      = Branch.offramp nodename f.ActorID f.ActorPlatformID taskID platformID serviceID feedID := by
  simp [onMessage, onMessageBody,
    Split_CtrlOfframpTopic f nodename taskID platformID serviceID feedID hr ha hap hn ht hp hs hf,
    andThen]

theorem offramp_round_trip_witness :
    (onMessage ⟨FabricInitialize "home" "kitchen" "esp" DEVICE, none, none, none, some 2⟩
      ((FabricInitialize "home" "ctrl" "linux" CONTROLLER).CtrlOfframpTopic
        "kitchen" "raw" "esp" "text" "lcd")
      "hello").branch = Branch.offramp "kitchen" "ctrl" "linux" "raw" "esp" "text" "lcd" :=
  offramp_round_trip (FabricInitialize "home" "ctrl" "linux" CONTROLLER)
    ⟨FabricInitialize "home" "kitchen" "esp" DEVICE, none, none, none, some 2⟩
    "kitchen" "raw" "esp" "text" "lcd" "hello"
    (by decide) (by decide) (by decide) (by decide) (by decide) (by decide) (by decide)
    (by decide)

/-! ## Role-based dispatch -/

theorem tokens_of_seven_le (tk : List String) (h : 7 ≤ tk.length) :
    ∃ t0 t1 t2 t3 t4 t5 t6 rest, tk = t0 :: t1 :: t2 :: t3 :: t4 :: t5 :: t6 :: rest := by
  match tk, h with
  | t0 :: t1 :: t2 :: t3 :: t4 :: t5 :: t6 :: rest, _ => exact ⟨t0, t1, t2, t3, t4, t5, t6, rest, rfl⟩

theorem tokens_of_ten_le (tk : List String) (h : 10 ≤ tk.length) :
    ∃ t0 t1 t2 t3 t4 t5 t6 t7 t8 t9 rest,
      tk = t0 :: t1 :: t2 :: t3 :: t4 :: t5 :: t6 :: t7 :: t8 :: t9 :: rest := by
  match tk, h with
  | t0 :: t1 :: t2 :: t3 :: t4 :: t5 :: t6 :: t7 :: t8 :: t9 :: rest, _ =>
    exact ⟨t0, t1, t2, t3, t4, t5, t6, t7, t8, t9, rest, rfl⟩

/-- C3. Onramp dispatch rule: for a topic of onramp shape (segment 2 is `$feeds`, segment 3
is `$onramp`, at least seven segments) with nodename segment `nodename`, the handler invokes
the onramp callback iff one is registered and the role is Controller, or the role is Device
and `nodename` differs from the node's own `NodeName`. In particular a Device never receives
an onramp message carrying its own name and, with a callback registered, receives every
other one. -/
theorem onramp_dispatch_rule (m : MqttFabric) (topic payload nodename : String)
    (hcount : 7 ≤ (Split topic '/').length)
    (h1 : (Split topic '/')[1]? = some nodename)
    (h2 : (Split topic '/')[2]? = some "$feeds")
    (h3 : (Split topic '/')[3]? = some "$onramp") :
    ((onMessage m topic payload).invokesOnramp = true ↔
      (m.OnOnramp ≠ none ∧
        (m.F.ClassType = CONTROLLER ∨ (m.F.ClassType = DEVICE ∧ nodename ≠ m.F.NodeName))))
    ∧ (m.F.ClassType = DEVICE → nodename = m.F.NodeName →
        (onMessage m topic payload).invokesOnramp = false)
    ∧ (m.F.ClassType = DEVICE → nodename ≠ m.F.NodeName → m.OnOnramp ≠ none →
        (onMessage m topic payload).invokesOnramp = true) := by
  unfold onMessage onMessageBody
  generalize Split topic '/' = tk at hcount h1 h2 h3
  obtain ⟨t0, t1, t2, t3, t4, t5, t6, rest, rfl⟩ := tokens_of_seven_le tk hcount
  simp only [List.getElem?_cons_succ, List.getElem?_cons_zero, Option.some.injEq] at h1 h2 h3
  subst h1 h2 h3
  simp only [andThen, Outcome.invokesOnramp]
  cases hh : m.OnOnramp with
  | none => simp
  | some h =>
    have hcd : (DEVICE : Int) ≠ CONTROLLER := by decide
    by_cases hc : m.F.ClassType = CONTROLLER
    · simp [hc, Call.isOnramp]
      intro hd
      exact absurd hd.symm hcd
    · by_cases hd : m.F.ClassType = DEVICE
      · by_cases hn : t1 = m.F.NodeName <;> simp [hc, hd, hn, hcd, Call.isOnramp]
      · simp [hc, hd, Call.isOnramp]

theorem onramp_dispatch_rule_witness :
    ((onMessage ⟨FabricInitialize "home" "kitchen" "esp" DEVICE, none, none, some 1, none⟩
        "home/garage/$feeds/$onramp/esp/text/temp" "21").invokesOnramp = true ↔
      ((some 1 : Option Nat) ≠ none ∧
        ((1 : Int) = CONTROLLER ∨ ((1 : Int) = DEVICE ∧ "garage" ≠ "kitchen")))) :=
  (onramp_dispatch_rule ⟨FabricInitialize "home" "kitchen" "esp" DEVICE, none, none, some 1, none⟩
    "home/garage/$feeds/$onramp/esp/text/temp" "21" "garage"
    (by decide) (by decide) (by decide) (by decide)).1

/-- C4. Offramp dispatch rule: for a topic of offramp shape (segment 2 is `$feeds`, segment 3
is `$offramp`, at least ten segments) with nodename segment `nodename`, the handler invokes
the offramp callback iff one is registered and the role is Device, or the role is Controller
and `nodename` differs from the node's own `NodeName`. -/
theorem offramp_dispatch_rule (m : MqttFabric) (topic payload nodename : String)
    (hcount : 10 ≤ (Split topic '/').length)
    (h1 : (Split topic '/')[1]? = some nodename)
    (h2 : (Split topic '/')[2]? = some "$feeds")
    (h3 : (Split topic '/')[3]? = some "$offramp") :
    ((onMessage m topic payload).invokesOfframp = true ↔
      (m.OnOfframp ≠ none ∧
        (m.F.ClassType = DEVICE ∨ (m.F.ClassType = CONTROLLER ∧ nodename ≠ m.F.NodeName)))) := by
  unfold onMessage onMessageBody
  generalize Split topic '/' = tk at hcount h1 h2 h3
  obtain ⟨t0, t1, t2, t3, t4, t5, t6, t7, t8, t9, rest, rfl⟩ := tokens_of_ten_le tk hcount
  simp only [List.getElem?_cons_succ, List.getElem?_cons_zero, Option.some.injEq] at h1 h2 h3
  subst h1 h2 h3
  simp only [andThen, Outcome.invokesOfframp]
  cases hh : m.OnOfframp with
  | none => simp
  | some h =>
    have hcd : (CONTROLLER : Int) ≠ DEVICE := by decide
    by_cases hd : m.F.ClassType = DEVICE
    · simp [hd, Call.isOfframp]
    · by_cases hc : m.F.ClassType = CONTROLLER
      · by_cases hn : t1 = m.F.NodeName <;> simp [hc, hd, hn, hcd, Call.isOfframp]
      · simp [hc, hd, Call.isOfframp]

theorem offramp_dispatch_rule_witness :
    ((onMessage ⟨FabricInitialize "home" "ctrl" "linux" CONTROLLER, none, none, none, some 2⟩
        "home/ctrl/$feeds/$offramp/ctrl/linux/raw/esp/text/lcd" "hello").invokesOfframp = true ↔
      ((some 2 : Option Nat) ≠ none ∧
        ((2 : Int) = DEVICE ∨ ((2 : Int) = CONTROLLER ∧ "ctrl" ≠ "ctrl")))) :=
  offramp_dispatch_rule ⟨FabricInitialize "home" "ctrl" "linux" CONTROLLER, none, none, none, some 2⟩
    "home/ctrl/$feeds/$offramp/ctrl/linux/raw/esp/text/lcd" "hello" "ctrl"
    (by decide) (by decide) (by decide) (by decide)

/-! ## The arms of the classification -/

theorem onMessageBody_short (m : MqttFabric) (topic payload : String)
    (h : (Split topic '/').length < 3) : onMessageBody m topic payload = none := by
  unfold onMessageBody
  generalize Split topic '/' = tk at h
  rcases tk with _ | ⟨t0, _ | ⟨t1, _ | ⟨t2, tk⟩⟩⟩
  · simp
  · simp
  · simp
  · simp at h; omega

theorem onMessageBody_other (m : MqttFabric) (topic payload t2 : String)
    (h2 : (Split topic '/')[2]? = some t2) (hc : t2 ≠ "$commands") (hf : t2 ≠ "$feeds") :
    onMessageBody m topic payload = some ⟨Branch.other, []⟩ := by
  unfold onMessageBody
  simp [h2, hc, hf]

theorem onMessageBody_commands_short (m : MqttFabric) (topic payload : String)
    (h2 : (Split topic '/')[2]? = some "$commands") (h : (Split topic '/').length < 7) :
    onMessageBody m topic payload = none := by
  unfold onMessageBody
  generalize Split topic '/' = tk at h h2
  rcases tk with _ | ⟨t0, _ | ⟨t1, _ | ⟨t2, _ | ⟨t3, _ | ⟨t4, _ | ⟨t5, _ | ⟨t6, tk⟩⟩⟩⟩⟩⟩⟩ <;>
    simp at h2 <;> simp [h2]
  simp at h; omega

theorem onMessageBody_commands (m : MqttFabric) (topic payload t0 t1 t3 t4 t5 t6 : String)
    (rest : List String)
    (h : Split topic '/' = t0 :: t1 :: "$commands" :: t3 :: t4 :: t5 :: t6 :: rest) :
    onMessageBody m topic payload = some ⟨Branch.commands t1 t4 t5 t6, []⟩ := by
  unfold onMessageBody
  simp [h]

theorem onMessageBody_onramp (m : MqttFabric) (topic payload t0 t1 t4 t5 t6 : String)
    (rest : List String)
    (h : Split topic '/' = t0 :: t1 :: "$feeds" :: "$onramp" :: t4 :: t5 :: t6 :: rest) :
    onMessageBody m topic payload =
      some ⟨Branch.onramp t1 t4 t5 t6, onrampCalls m t1 t4 t5 t6 payload⟩ := by
  unfold onMessageBody
  simp [h, andThen, onrampCalls]

theorem onMessageBody_offramp (m : MqttFabric) (topic payload t0 t1 t4 t5 t6 t7 t8 t9 : String)
    (rest : List String)
    (h : Split topic '/' =
      t0 :: t1 :: "$feeds" :: "$offramp" :: t4 :: t5 :: t6 :: t7 :: t8 :: t9 :: rest) :
    onMessageBody m topic payload =
      some ⟨Branch.offramp t1 t4 t5 t6 t7 t8 t9,
        offrampCalls m t1 t4 t5 t6 t7 t8 t9 payload⟩ := by
  unfold onMessageBody
  simp [h, andThen, offrampCalls]

theorem andThen_eq_false (c : Bool) (o : Option String) (lit : String)
    (h : ¬ (c = true ∧ o = some lit)) :
    andThen c (o.map (fun t => decide (t = lit))) = some false ∨
    (c = true ∧ o = none ∧ andThen c (o.map (fun t => decide (t = lit))) = none) := by
  cases c <;> cases o <;> simp_all [andThen]

theorem onMessageBody_invalidFeed (m : MqttFabric) (topic payload : String)
    (h2 : (Split topic '/')[2]? = some "$feeds")
    (hon : ¬ (7 ≤ (Split topic '/').length ∧ (Split topic '/')[3]? = some "$onramp"))
    (hoff : ¬ (10 ≤ (Split topic '/').length ∧ (Split topic '/')[3]? = some "$offramp")) :
    onMessageBody m topic payload = some ⟨Branch.invalidFeed, []⟩ := by
  unfold onMessageBody
  generalize Split topic '/' = tk at h2 hon hoff
  have h3 : tk.length > 6 → tk[3]? ≠ none := by
    intro h; simp; omega
  have h3' : tk.length ≥ 10 → tk[3]? ≠ none := by
    intro h; simp; omega
  have e1 : andThen (decide (tk.length > 6)) ((tk[3]?).map (fun t => decide (t = "$onramp")))
      = some false := by
    rcases andThen_eq_false (decide (tk.length > 6)) tk[3]? "$onramp"
      (by simpa using fun a b => hon ⟨a, b⟩) with h | ⟨a, b, _⟩
    · exact h
    · exact absurd b (h3 (by simpa using a))
  have e2 : andThen (decide (tk.length ≥ 10)) ((tk[3]?).map (fun t => decide (t = "$offramp")))
      = some false := by
    rcases andThen_eq_false (decide (tk.length ≥ 10)) tk[3]? "$offramp"
      (by simpa using fun a b => hoff ⟨a, b⟩) with h | ⟨a, b, _⟩
    · exact h
    · exact absurd b (h3' (by simpa using a))
  simp only [h2, e1, e2]
  simp

theorem onrampCalls_not_offramp (m : MqttFabric) (a b c d p : String) :
    (onrampCalls m a b c d p).any Call.isOfframp = false := by
  unfold onrampCalls
  split
  · split_ifs <;> simp [Call.isOfframp]
  · simp

theorem offrampCalls_not_onramp (m : MqttFabric) (a b c d e f g p : String) :
    (offrampCalls m a b c d e f g p).any Call.isOnramp = false := by
  unfold offrampCalls
  split
  · split_ifs <;> simp [Call.isOnramp]
  · simp

/-- The outcome of the handler, given how its body ended. -/
theorem onMessage_of_body (m : MqttFabric) (topic payload : String) (o : Outcome)
    (h : onMessageBody m topic payload = some o) : onMessage m topic payload = o := by
  simp only [onMessage, h]

theorem onMessage_of_fault (m : MqttFabric) (topic payload : String)
    (h : onMessageBody m topic payload = none) :
    onMessage m topic payload = ⟨Branch.faulted, []⟩ := by
  simp only [onMessage, h]

/-- Every run of the body ends in exactly one of seven ways, determined by the segments. -/
theorem onMessageBody_cases (m : MqttFabric) (topic payload : String) :
    ((Split topic '/').length < 3 ∧ onMessageBody m topic payload = none) ∨
    ((Split topic '/')[2]? = some "$commands" ∧ (Split topic '/').length < 7 ∧
      onMessageBody m topic payload = none) ∨
    (∃ t0 t1 t3 t4 t5 t6 rest,
      Split topic '/' = t0 :: t1 :: "$commands" :: t3 :: t4 :: t5 :: t6 :: rest ∧
      onMessageBody m topic payload = some ⟨Branch.commands t1 t4 t5 t6, []⟩) ∨
    (∃ t0 t1 t4 t5 t6 rest,
      Split topic '/' = t0 :: t1 :: "$feeds" :: "$onramp" :: t4 :: t5 :: t6 :: rest ∧
      onMessageBody m topic payload =
        some ⟨Branch.onramp t1 t4 t5 t6, onrampCalls m t1 t4 t5 t6 payload⟩) ∨
    (∃ t0 t1 t4 t5 t6 t7 t8 t9 rest,
      Split topic '/' =
        t0 :: t1 :: "$feeds" :: "$offramp" :: t4 :: t5 :: t6 :: t7 :: t8 :: t9 :: rest ∧
      onMessageBody m topic payload =
        some ⟨Branch.offramp t1 t4 t5 t6 t7 t8 t9,
          offrampCalls m t1 t4 t5 t6 t7 t8 t9 payload⟩) ∨
    ((Split topic '/')[2]? = some "$feeds" ∧
      ¬ (7 ≤ (Split topic '/').length ∧ (Split topic '/')[3]? = some "$onramp") ∧
      ¬ (10 ≤ (Split topic '/').length ∧ (Split topic '/')[3]? = some "$offramp") ∧
      onMessageBody m topic payload = some ⟨Branch.invalidFeed, []⟩) ∨
    (∃ t2, (Split topic '/')[2]? = some t2 ∧ t2 ≠ "$commands" ∧ t2 ≠ "$feeds" ∧
      onMessageBody m topic payload = some ⟨Branch.other, []⟩) := by
  by_cases hlen : (Split topic '/').length < 3
  · exact Or.inl ⟨hlen, onMessageBody_short m topic payload hlen⟩
  · have h2lt : 2 < (Split topic '/').length := by omega
    have h2 : (Split topic '/')[2]? = some ((Split topic '/')[2]) := List.getElem?_eq_getElem h2lt
    by_cases hc : (Split topic '/')[2] = "$commands"
    · rw [hc] at h2
      by_cases h7 : (Split topic '/').length < 7
      · exact Or.inr (Or.inl ⟨h2, h7, onMessageBody_commands_short m topic payload h2 h7⟩)
      · obtain ⟨t0, t1, t2, t3, t4, t5, t6, rest, e⟩ :=
          tokens_of_seven_le (Split topic '/') (by omega)
        have e2 : t2 = "$commands" := by simpa [e] using h2
        subst e2
        exact Or.inr (Or.inr (Or.inl ⟨t0, t1, t3, t4, t5, t6, rest, e,
          onMessageBody_commands m topic payload t0 t1 t3 t4 t5 t6 rest e⟩))
    · by_cases hf : (Split topic '/')[2] = "$feeds"
      · rw [hf] at h2
        by_cases hon : 7 ≤ (Split topic '/').length ∧ (Split topic '/')[3]? = some "$onramp"
        · obtain ⟨t0, t1, t2, t3, t4, t5, t6, rest, e⟩ :=
            tokens_of_seven_le (Split topic '/') hon.1
          have e2 : t2 = "$feeds" := by simpa [e] using h2
          have e3 : t3 = "$onramp" := by simpa [e] using hon.2
          subst e2 e3
          exact Or.inr (Or.inr (Or.inr (Or.inl ⟨t0, t1, t4, t5, t6, rest, e,
            onMessageBody_onramp m topic payload t0 t1 t4 t5 t6 rest e⟩)))
        · by_cases hoff :
              10 ≤ (Split topic '/').length ∧ (Split topic '/')[3]? = some "$offramp"
          · obtain ⟨t0, t1, t2, t3, t4, t5, t6, t7, t8, t9, rest, e⟩ :=
              tokens_of_ten_le (Split topic '/') hoff.1
            have e2 : t2 = "$feeds" := by simpa [e] using h2
            have e3 : t3 = "$offramp" := by simpa [e] using hoff.2
            subst e2 e3
            exact Or.inr (Or.inr (Or.inr (Or.inr (Or.inl ⟨t0, t1, t4, t5, t6, t7, t8, t9, rest, e,
              onMessageBody_offramp m topic payload t0 t1 t4 t5 t6 t7 t8 t9 rest e⟩))))
          · exact Or.inr (Or.inr (Or.inr (Or.inr (Or.inr (Or.inl
              ⟨h2, hon, hoff, onMessageBody_invalidFeed m topic payload h2 hon hoff⟩)))))
      · exact Or.inr (Or.inr (Or.inr (Or.inr (Or.inr (Or.inr
          ⟨_, h2, hc, hf, onMessageBody_other m topic payload _ h2 hc hf⟩)))))

/-! ## Malformed topics, exact shape, faults -/

/-- C5. Rejection of malformed topics: a topic with fewer than 7 segments, or whose segment 2
is neither `$commands` nor `$feeds`, or whose segment 2 is `$feeds` and segment 3 is neither
`$onramp` nor `$offramp`, is not recognised as a command, onramp or offramp topic (it ends in
the invalid-feed arm, the other arm or the recovered fault) and no callback is invoked,
whatever the role and the registered callbacks. -/
theorem malformed_topic_rejected (m : MqttFabric) (topic payload : String)
    (h : (Split topic '/').length < 7 ∨
      ((Split topic '/')[2]? ≠ some "$commands" ∧ (Split topic '/')[2]? ≠ some "$feeds") ∨
      ((Split topic '/')[2]? = some "$feeds" ∧ (Split topic '/')[3]? ≠ some "$onramp" ∧
        (Split topic '/')[3]? ≠ some "$offramp")) :
    (onMessage m topic payload).calls = [] ∧
      (onMessage m topic payload).invokesOnramp = false ∧
      (onMessage m topic payload).invokesOfframp = false ∧
      ((onMessage m topic payload).branch = Branch.invalidFeed ∨
        (onMessage m topic payload).branch = Branch.other ∨
        (onMessage m topic payload).branch = Branch.faulted) := by
  have key : onMessage m topic payload = ⟨Branch.invalidFeed, []⟩ ∨
      onMessage m topic payload = ⟨Branch.other, []⟩ ∨
      onMessage m topic payload = ⟨Branch.faulted, []⟩ := by
    rcases onMessageBody_cases m topic payload with
      ⟨_, e⟩ | ⟨_, _, e⟩ | ⟨t0, t1, t3, t4, t5, t6, rest, hs, _⟩ |
      ⟨t0, t1, t4, t5, t6, rest, hs, _⟩ | ⟨t0, t1, t4, t5, t6, t7, t8, t9, rest, hs, _⟩ |
      ⟨_, _, _, e⟩ | ⟨t2, _, _, _, e⟩
    · exact Or.inr (Or.inr (onMessage_of_fault m topic payload e))
    · exact Or.inr (Or.inr (onMessage_of_fault m topic payload e))
    · exfalso; simp [hs] at h; omega
    · exfalso; simp [hs] at h; omega
    · exfalso; simp [hs] at h; omega
    · exact Or.inl (onMessage_of_body m topic payload _ e)
    · exact Or.inr (Or.inl (onMessage_of_body m topic payload _ e))
  rcases key with e | e | e <;> simp [e, Outcome.invokesOnramp, Outcome.invokesOfframp]

theorem malformed_topic_rejected_witness :
    (onMessage ⟨FabricInitialize "home" "ctrl" "linux" CONTROLLER, none, none, some 1, some 2⟩
        "home/kitchen/$feeds/$onramp/esp/text" "21").calls = [] :=
  (malformed_topic_rejected
    ⟨FabricInitialize "home" "ctrl" "linux" CONTROLLER, none, none, some 1, some 2⟩
    "home/kitchen/$feeds/$onramp/esp/text" "21" (Or.inl (by decide))).1

/-- C6, as the claim states it, fails: an 8-segment `$feeds/$onramp` topic is dispatched as
onramp, and an 11-segment `$feeds/$offramp` topic is dispatched as offramp. -/
theorem exact_shape_counterexample :
    (Split "home/kitchen/$feeds/$onramp/esp/text/temp/extra" '/').length = 8 ∧
    onMessage ⟨FabricInitialize "home" "ctrl" "linux" CONTROLLER, none, none, some 1, some 2⟩
        "home/kitchen/$feeds/$onramp/esp/text/temp/extra" "21" =
      ⟨Branch.onramp "kitchen" "esp" "text" "temp",
        [Call.onramp 1 "kitchen" "esp" "text" "temp" "21"]⟩ ∧
    (Split "home/kitchen/$feeds/$offramp/ctrl/linux/raw/esp/text/lcd/extra" '/').length = 11 ∧
    onMessage ⟨FabricInitialize "home" "kitchen" "esp" DEVICE, none, none, some 1, some 2⟩
        "home/kitchen/$feeds/$offramp/ctrl/linux/raw/esp/text/lcd/extra" "hello" =
      ⟨Branch.offramp "kitchen" "ctrl" "linux" "raw" "esp" "text" "lcd",
        [Call.offramp 2 "kitchen" "ctrl" "linux" "raw" "esp" "text" "lcd" "hello"]⟩ := by
  decide

/-- C6, amended. A topic is dispatched as onramp only if it has at least 7 segments and as
offramp only if it has at least 10; a `$feeds/$onramp` topic with fewer than 7 segments and a
`$feeds/$offramp` topic with fewer than 10 end in the invalid-feed arm with no callback
invoked; a `$feeds/$onramp` topic with 7 or more segments reaches the onramp arm and a
`$feeds/$offramp` topic with 10 or more the offramp arm, the fields being read from the
leading segments and further segments ignored. -/
theorem shape_at_least (m : MqttFabric) (topic payload : String) :
    ((onMessage m topic payload).invokesOnramp = true → 7 ≤ (Split topic '/').length) ∧
    ((onMessage m topic payload).invokesOfframp = true → 10 ≤ (Split topic '/').length) ∧
    ((Split topic '/')[2]? = some "$feeds" → (Split topic '/')[3]? = some "$onramp" →
      (Split topic '/').length < 7 → onMessage m topic payload = ⟨Branch.invalidFeed, []⟩) ∧
    ((Split topic '/')[2]? = some "$feeds" → (Split topic '/')[3]? = some "$offramp" →
      (Split topic '/').length < 10 → onMessage m topic payload = ⟨Branch.invalidFeed, []⟩) ∧
    (∀ t0 t1 t4 t5 t6 rest,
      Split topic '/' = t0 :: t1 :: "$feeds" :: "$onramp" :: t4 :: t5 :: t6 :: rest →
      onMessage m topic payload =
        ⟨Branch.onramp t1 t4 t5 t6, onrampCalls m t1 t4 t5 t6 payload⟩) ∧
    (∀ t0 t1 t4 t5 t6 t7 t8 t9 rest,
      Split topic '/' =
        t0 :: t1 :: "$feeds" :: "$offramp" :: t4 :: t5 :: t6 :: t7 :: t8 :: t9 :: rest →
      onMessage m topic payload =
        ⟨Branch.offramp t1 t4 t5 t6 t7 t8 t9, offrampCalls m t1 t4 t5 t6 t7 t8 t9 payload⟩) := by
  refine ⟨?_, ?_, ?_, ?_, ?_, ?_⟩
  · intro hinv
    rcases onMessageBody_cases m topic payload with
      ⟨_, e⟩ | ⟨_, _, e⟩ | ⟨t0, t1, t3, t4, t5, t6, rest, hs, e⟩ |
      ⟨t0, t1, t4, t5, t6, rest, hs, e⟩ | ⟨t0, t1, t4, t5, t6, t7, t8, t9, rest, hs, e⟩ |
      ⟨_, _, _, e⟩ | ⟨t2, _, _, _, e⟩
    · simp [onMessage, e, Outcome.invokesOnramp] at hinv
    · simp [onMessage, e, Outcome.invokesOnramp] at hinv
    · simp [onMessage, e, Outcome.invokesOnramp] at hinv
    · simp [hs]
    · simp [hs]
    · simp [onMessage, e, Outcome.invokesOnramp] at hinv
    · simp [onMessage, e, Outcome.invokesOnramp] at hinv
  · intro hinv
    rcases onMessageBody_cases m topic payload with
      ⟨_, e⟩ | ⟨_, _, e⟩ | ⟨t0, t1, t3, t4, t5, t6, rest, hs, e⟩ |
      ⟨t0, t1, t4, t5, t6, rest, hs, e⟩ | ⟨t0, t1, t4, t5, t6, t7, t8, t9, rest, hs, e⟩ |
      ⟨_, _, _, e⟩ | ⟨t2, _, _, _, e⟩
    · simp [onMessage, e, Outcome.invokesOfframp] at hinv
    · simp [onMessage, e, Outcome.invokesOfframp] at hinv
    · simp [onMessage, e, Outcome.invokesOfframp] at hinv
    · rw [onMessage_of_body m topic payload _ e] at hinv
      simp only [Outcome.invokesOfframp] at hinv
      rw [onrampCalls_not_offramp] at hinv
      exact absurd hinv (by decide)
    · simp [hs]
    · simp [onMessage, e, Outcome.invokesOfframp] at hinv
    · simp [onMessage, e, Outcome.invokesOfframp] at hinv
  · intro h2 h3 hlen
    exact onMessage_of_body m topic payload _
      (onMessageBody_invalidFeed m topic payload h2 (fun h => by omega) (fun h => by omega))
  · intro h2 h3 hlen
    refine onMessage_of_body m topic payload _
      (onMessageBody_invalidFeed m topic payload h2 (fun h => ?_) (fun h => by omega))
    rw [h3] at h
    exact absurd h.2 (by decide)
  · intro t0 t1 t4 t5 t6 rest hs
    exact onMessage_of_body m topic payload _
      (onMessageBody_onramp m topic payload t0 t1 t4 t5 t6 rest hs)
  · intro t0 t1 t4 t5 t6 t7 t8 t9 rest hs
    exact onMessage_of_body m topic payload _
      (onMessageBody_offramp m topic payload t0 t1 t4 t5 t6 t7 t8 t9 rest hs)

theorem shape_at_least_witness :
    onMessage ⟨FabricInitialize "home" "ctrl" "linux" CONTROLLER, none, none, some 1, some 2⟩
        "home/kitchen/$feeds/$onramp/esp/text" "21" = ⟨Branch.invalidFeed, []⟩ :=
  (shape_at_least
    ⟨FabricInitialize "home" "ctrl" "linux" CONTROLLER, none, none, some 1, some 2⟩
    "home/kitchen/$feeds/$onramp/esp/text" "21").2.2.1 (by decide) (by decide) (by decide)

/-- C7, as the claim states it, fails: on the empty topic, and on a 4-segment `$commands`
topic, an index read is out of range and the handler ends in its recovered-fault arm. -/
theorem index_fault_counterexample :
    onMessageBody ⟨FabricInitialize "home" "ctrl" "linux" CONTROLLER, none, none, some 1, some 2⟩
        "" "x" = none ∧
    onMessage ⟨FabricInitialize "home" "ctrl" "linux" CONTROLLER, none, none, some 1, some 2⟩
        "" "x" = ⟨Branch.faulted, []⟩ ∧
    onMessageBody ⟨FabricInitialize "home" "ctrl" "linux" CONTROLLER, none, none, some 1, some 2⟩
        "home/kitchen/$commands/$clients" "x" = none := by
  decide

/-- C7, amended. The handler always ends (a fault never leaves it): an index read is out of
range exactly when the topic has fewer than 3 segments, or segment 2 is `$commands` and the
topic has fewer than 7 segments; the fault is then recovered and no callback is invoked. For
every other topic all index reads are within bounds. -/
theorem fault_iff (m : MqttFabric) (topic payload : String) :
    (onMessageBody m topic payload = none ↔
      ((Split topic '/').length < 3 ∨
        ((Split topic '/')[2]? = some "$commands" ∧ (Split topic '/').length < 7))) ∧
    (onMessageBody m topic payload = none →
      onMessage m topic payload = ⟨Branch.faulted, []⟩) ∧
    ((onMessage m topic payload).branch = Branch.faulted ↔
      onMessageBody m topic payload = none) := by
  refine ⟨⟨fun hnone => ?_, fun hcond => ?_⟩, onMessage_of_fault m topic payload,
    ⟨fun hb => ?_, fun hnone => by rw [onMessage_of_fault m topic payload hnone]⟩⟩
  · rcases onMessageBody_cases m topic payload with
      ⟨hl, _⟩ | ⟨h2, hl, _⟩ | ⟨_, _, _, _, _, _, _, _, e⟩ | ⟨_, _, _, _, _, _, _, e⟩ |
      ⟨_, _, _, _, _, _, _, _, _, _, e⟩ | ⟨_, _, _, e⟩ | ⟨_, _, _, _, e⟩
    · exact Or.inl hl
    · exact Or.inr ⟨h2, hl⟩
    all_goals
      rw [e] at hnone
      exact absurd hnone (by simp)
  · rcases hcond with hl | ⟨h2, hl⟩
    · exact onMessageBody_short m topic payload hl
    · exact onMessageBody_commands_short m topic payload h2 hl
  · rcases onMessageBody_cases m topic payload with
      ⟨_, e⟩ | ⟨_, _, e⟩ | ⟨_, _, _, _, _, _, _, _, e⟩ | ⟨_, _, _, _, _, _, _, e⟩ |
      ⟨_, _, _, _, _, _, _, _, _, _, e⟩ | ⟨_, _, _, e⟩ | ⟨_, _, _, _, e⟩
    · exact e
    · exact e
    all_goals
      rw [onMessage_of_body m topic payload _ e] at hb
      exact absurd hb (by simp)

/-! ## The status message -/

theorem append_ne_empty_of_right (a b : String) (h : b ≠ "") : a ++ b ≠ "" := by
  intro e
  apply h
  have := congrArg String.data e
  simp [String.data_append] at this
  exact String.ext (by simpa using this.2)

theorem append_ne_empty_of_left (a b : String) (h : a ≠ "") : a ++ b ≠ "" := by
  intro e
  apply h
  have := congrArg String.data e
  simp [String.data_append] at this
  exact String.ext (by simpa using this.1)

/-- The status topic with its constants written out. -/
theorem status_topic_eq (f : Fabric) :
    f.RootTopic ++ "/" ++ f.NodeName ++ "/$commands/$clients/" ++ FABRIC_SYS ++ "/"
      ++ f.PlatformID ++ "/" ++ FABRIC_CMD_STATUS =
    f.RootTopic ++ "/" ++ f.NodeName ++ "/$commands/$clients/sysctl/" ++ f.PlatformID
      ++ "/status" := by
  have e1 : ("/$commands/$clients/sysctl/" : String) =
      "/$commands/$clients/" ++ (FABRIC_SYS ++ "/") := by decide
  have e2 : ("/status" : String) = "/" ++ FABRIC_CMD_STATUS := by decide
  rw [e1, e2]
  simp only [String.append_assoc]

/-- What `StatusMessage` returns for a valid role and a valid status: the topic and the
marshalled struct. -/
theorem StatusMessage_valid (f : Fabric) (st : Status) (s : Int) (cls label : String)
    (up : Option Int)
    (hrole : (f.ClassType = DEVICE ∧ cls = "device") ∨
      (f.ClassType = CONTROLLER ∧ cls = "controller"))
    (hst : (st = FABRIC_ONLINE ∧ label = "online" ∧ up = some s) ∨
      (st = FABRIC_OFFLINE ∧ label = "offline" ∧ up = some s) ∨
      (st = FABRIC_DISCONNECTED ∧ label = "disconnected" ∧ up = none)) :
    f.StatusMessage st s =
      (f.RootTopic ++ "/" ++ f.NodeName ++ "/$commands/$clients/" ++ FABRIC_SYS ++ "/"
        ++ f.PlatformID ++ "/" ++ FABRIC_CMD_STATUS,
       Marshal ⟨{ Type_ := "status", Status := label, Uptime := up, Nodename := f.NodeName,
                  PlatformID := f.PlatformID, Class := cls }⟩) := by
  have hcd : (CONTROLLER : Int) ≠ DEVICE := by decide
  have h21 : (FABRIC_OFFLINE : Int) ≠ FABRIC_ONLINE := by decide
  have h31 : (FABRIC_DISCONNECTED : Int) ≠ FABRIC_ONLINE := by decide
  have h32 : (FABRIC_DISCONNECTED : Int) ≠ FABRIC_OFFLINE := by decide
  rcases hrole with ⟨hr, rfl⟩ | ⟨hr, rfl⟩ <;>
    rcases hst with ⟨hs, rfl, rfl⟩ | ⟨hs, rfl, rfl⟩ | ⟨hs, rfl, rfl⟩ <;>
    simp only [Fabric.StatusMessage, hr, hs, hcd, h21, h31, h32, if_true, if_false]

/-- The serialised form of a status struct. -/
theorem Marshal_eq (d : D) :
    Marshal d =
      "\x7b" ++ "\"d\"" ++ ":" ++ "\x7b" ++ "\"_type\"" ++ ":" ++ quote d.Data.Type_ ++ ","
        ++ "\"status\"" ++ ":" ++ quote d.Data.Status ++ ","
        ++ "\"uptime\"" ++ ":" ++
          (match d.Data.Uptime with
            | none => "null"
            | some n => formatInt n) ++ ","
        ++ "\"nodename\"" ++ ":" ++ quote d.Data.Nodename ++ ","
        ++ "\"platform_id\"" ++ ":" ++ quote d.Data.PlatformID ++ ","
        ++ "\"class\"" ++ ":" ++ quote d.Data.Class ++ "\x7d" ++ "\x7d" := by
  have q1 : quote "d" = "\"d\"" := by decide
  have q2 : quote "_type" = "\"_type\"" := by decide
  have q3 : quote "status" = "\"status\"" := by decide
  have q4 : quote "uptime" = "\"uptime\"" := by decide
  have q5 : quote "nodename" = "\"nodename\"" := by decide
  have q6 : quote "platform_id" = "\"platform_id\"" := by decide
  have q7 : quote "class" = "\"class\"" := by decide
  cases h : d.Data.Uptime <;>
    simp only [Marshal, D.toJSON, JSON.encode, encodeMembers, h, q1, q2, q3, q4, q5, q6, q7,
      String.append_assoc]

/-- C8, as the claim states it, fails: the body of a disconnected status does contain the
`uptime` key, with the value `null`. -/
theorem disconnected_uptime_counterexample :
    ((FabricInitialize "home" "kitchen" "esp" DEVICE).StatusMessage FABRIC_DISCONNECTED 42).2 =
      "\x7b\"d\":\x7b\"_type\":\"status\",\"status\":\"disconnected\",\"uptime\":null,\"nodename\":\"kitchen\",\"platform_id\":\"esp\",\"class\":\"device\"\x7d\x7d" ∧
    "\"uptime\"".data <:+:
      ((FabricInitialize "home" "kitchen" "esp" DEVICE).StatusMessage
        FABRIC_DISCONNECTED 42).2.data := by
  decide

/-- C8, amended. For an identity with role Device or Controller and every `s`, the body of
`StatusMessage(FABRIC_DISCONNECTED, s)` carries the member `"uptime":null` (the key is
present, its value is JSON null, and the body does not depend on `s`), while the bodies of
`StatusMessage(FABRIC_ONLINE, s)` and `StatusMessage(FABRIC_OFFLINE, s)` carry
`"uptime":s` with `s` written as a decimal integer. -/
theorem status_uptime (f : Fabric) (s : Int) (cls : String)
    (hrole : (f.ClassType = DEVICE ∧ cls = "device") ∨
      (f.ClassType = CONTROLLER ∧ cls = "controller")) :
    (f.StatusMessage FABRIC_DISCONNECTED s).2 =
      "\x7b" ++ "\"d\"" ++ ":" ++ "\x7b" ++ "\"_type\"" ++ ":" ++ "\"status\"" ++ ","
        ++ "\"status\"" ++ ":" ++ "\"disconnected\"" ++ ","
        ++ "\"uptime\"" ++ ":" ++ "null" ++ ","
        ++ "\"nodename\"" ++ ":" ++ quote f.NodeName ++ ","
        ++ "\"platform_id\"" ++ ":" ++ quote f.PlatformID ++ ","
        ++ "\"class\"" ++ ":" ++ quote cls ++ "\x7d" ++ "\x7d" ∧
    (f.StatusMessage FABRIC_ONLINE s).2 =
      "\x7b" ++ "\"d\"" ++ ":" ++ "\x7b" ++ "\"_type\"" ++ ":" ++ "\"status\"" ++ ","
        ++ "\"status\"" ++ ":" ++ "\"online\"" ++ ","
        ++ "\"uptime\"" ++ ":" ++ formatInt s ++ ","
        ++ "\"nodename\"" ++ ":" ++ quote f.NodeName ++ ","
        ++ "\"platform_id\"" ++ ":" ++ quote f.PlatformID ++ ","
        ++ "\"class\"" ++ ":" ++ quote cls ++ "\x7d" ++ "\x7d" ∧
    (f.StatusMessage FABRIC_OFFLINE s).2 =
      "\x7b" ++ "\"d\"" ++ ":" ++ "\x7b" ++ "\"_type\"" ++ ":" ++ "\"status\"" ++ ","
        ++ "\"status\"" ++ ":" ++ "\"offline\"" ++ ","
        ++ "\"uptime\"" ++ ":" ++ formatInt s ++ ","
        ++ "\"nodename\"" ++ ":" ++ quote f.NodeName ++ ","
        ++ "\"platform_id\"" ++ ":" ++ quote f.PlatformID ++ ","
        ++ "\"class\"" ++ ":" ++ quote cls ++ "\x7d" ++ "\x7d" := by
  have q1 : quote "status" = "\"status\"" := by decide
  have q2 : quote "disconnected" = "\"disconnected\"" := by decide
  have q3 : quote "online" = "\"online\"" := by decide
  have q4 : quote "offline" = "\"offline\"" := by decide
  refine ⟨?_, ?_, ?_⟩
  · rw [StatusMessage_valid f FABRIC_DISCONNECTED s cls "disconnected" none hrole
      (Or.inr (Or.inr ⟨rfl, rfl, rfl⟩)), Marshal_eq]
    simp only [q1, q2]
  · rw [StatusMessage_valid f FABRIC_ONLINE s cls "online" (some s) hrole
      (Or.inl ⟨rfl, rfl, rfl⟩), Marshal_eq]
    simp only [q1, q3]
  · rw [StatusMessage_valid f FABRIC_OFFLINE s cls "offline" (some s) hrole
      (Or.inr (Or.inl ⟨rfl, rfl, rfl⟩)), Marshal_eq]
    simp only [q1, q4]

theorem status_uptime_witness :
    ((FabricInitialize "home" "kitchen" "esp" DEVICE).StatusMessage FABRIC_ONLINE 42).2 =
      "\x7b" ++ "\"d\"" ++ ":" ++ "\x7b" ++ "\"_type\"" ++ ":" ++ "\"status\"" ++ ","
        ++ "\"status\"" ++ ":" ++ "\"online\"" ++ ","
        ++ "\"uptime\"" ++ ":" ++ formatInt 42 ++ ","
        ++ "\"nodename\"" ++ ":" ++ quote "kitchen" ++ ","
        ++ "\"platform_id\"" ++ ":" ++ quote "esp" ++ ","
        ++ "\"class\"" ++ ":" ++ quote "device" ++ "\x7d" ++ "\x7d" ∧
    formatInt 42 = "42" :=
  ⟨(status_uptime (FabricInitialize "home" "kitchen" "esp" DEVICE) 42 "device"
    (Or.inl ⟨by decide, rfl⟩)).2.1, by decide⟩

/-- C9. Status failure signalling: `StatusMessage` returns two empty strings iff the role is
neither `DEVICE` nor `CONTROLLER` or the status is none of `FABRIC_ONLINE`, `FABRIC_OFFLINE`,
`FABRIC_DISCONNECTED`; in every other case the topic and the body are both non-empty. In
particular an unknown role always gives the failure result: no class label stands in for
it. -/
theorem status_failure_iff (f : Fabric) (st : Status) (s : Int) :
    (f.StatusMessage st s = ("", "") ↔
      (¬ (f.ClassType = DEVICE ∨ f.ClassType = CONTROLLER) ∨
        ¬ (st = FABRIC_ONLINE ∨ st = FABRIC_OFFLINE ∨ st = FABRIC_DISCONNECTED))) ∧
    (f.StatusMessage st s = ("", "") ∨
      ((f.StatusMessage st s).1 ≠ "" ∧ (f.StatusMessage st s).2 ≠ "")) := by
  by_cases hrole : f.ClassType = DEVICE ∨ f.ClassType = CONTROLLER
  · by_cases hst : st = FABRIC_ONLINE ∨ st = FABRIC_OFFLINE ∨ st = FABRIC_DISCONNECTED
    · have hvalid : ∃ cls label up, f.StatusMessage st s =
          (f.RootTopic ++ "/" ++ f.NodeName ++ "/$commands/$clients/" ++ FABRIC_SYS ++ "/"
            ++ f.PlatformID ++ "/" ++ FABRIC_CMD_STATUS,
           Marshal ⟨{ Type_ := "status", Status := label, Uptime := up,
                      Nodename := f.NodeName, PlatformID := f.PlatformID, Class := cls }⟩) := by
        rcases hrole with hr | hr <;> rcases hst with hs | hs | hs
        · exact ⟨_, _, _, StatusMessage_valid f st s "device" "online" (some s)
            (Or.inl ⟨hr, rfl⟩) (Or.inl ⟨hs, rfl, rfl⟩)⟩
        · exact ⟨_, _, _, StatusMessage_valid f st s "device" "offline" (some s)
            (Or.inl ⟨hr, rfl⟩) (Or.inr (Or.inl ⟨hs, rfl, rfl⟩))⟩
        · exact ⟨_, _, _, StatusMessage_valid f st s "device" "disconnected" none
            (Or.inl ⟨hr, rfl⟩) (Or.inr (Or.inr ⟨hs, rfl, rfl⟩))⟩
        · exact ⟨_, _, _, StatusMessage_valid f st s "controller" "online" (some s)
            (Or.inr ⟨hr, rfl⟩) (Or.inl ⟨hs, rfl, rfl⟩)⟩
        · exact ⟨_, _, _, StatusMessage_valid f st s "controller" "offline" (some s)
            (Or.inr ⟨hr, rfl⟩) (Or.inr (Or.inl ⟨hs, rfl, rfl⟩))⟩
        · exact ⟨_, _, _, StatusMessage_valid f st s "controller" "disconnected" none
            (Or.inr ⟨hr, rfl⟩) (Or.inr (Or.inr ⟨hs, rfl, rfl⟩))⟩
      obtain ⟨cls, label, up, e⟩ := hvalid
      have htopic : (f.StatusMessage st s).1 ≠ "" := by
        rw [e]
        exact append_ne_empty_of_right _ _ (by decide)
      have hbody : (f.StatusMessage st s).2 ≠ "" := by
        rw [e]
        show Marshal _ ≠ ""
        rw [Marshal_eq]
        exact append_ne_empty_of_right _ _ (by decide)
      refine ⟨⟨fun h => ?_, fun h => ?_⟩, Or.inr ⟨htopic, hbody⟩⟩
      · rw [h] at htopic
        exact absurd rfl htopic
      · rcases h with h | h
        · exact absurd hrole h
        · exact absurd hst h
    · have e : f.StatusMessage st s = ("", "") := by
        have h1 : st ≠ FABRIC_ONLINE := fun h => hst (Or.inl h)
        have h2 : st ≠ FABRIC_OFFLINE := fun h => hst (Or.inr (Or.inl h))
        have h3 : st ≠ FABRIC_DISCONNECTED := fun h => hst (Or.inr (Or.inr h))
        have hcd : (CONTROLLER : Int) ≠ DEVICE := by decide
        rcases hrole with hr | hr <;>
          simp only [Fabric.StatusMessage, hr, hcd, h1, h2, h3, if_true, if_false]
      exact ⟨⟨fun _ => Or.inr hst, fun _ => e⟩, Or.inl e⟩
  · have e : f.StatusMessage st s = ("", "") := by
      have h1 : f.ClassType ≠ DEVICE := fun h => hrole (Or.inl h)
      have h2 : f.ClassType ≠ CONTROLLER := fun h => hrole (Or.inr h)
      simp only [Fabric.StatusMessage, h1, h2, if_false]
    exact ⟨⟨fun _ => Or.inl hrole, fun _ => e⟩, Or.inl e⟩

/-- C10. Status topic shape: for a valid role and a valid status the topic returned by
`StatusMessage` is `RootTopic/NodeName/$commands/$clients/sysctl/PlatformID/status`, whatever
the status and the uptime; when `RootTopic`, `NodeName` and `PlatformID` contain no `/` it
splits into exactly the 7 segments
`[RootTopic, NodeName, $commands, $clients, sysctl, PlatformID, status]`. -/
theorem status_topic_shape (f : Fabric) (st : Status) (s : Int)
    (hrole : f.ClassType = DEVICE ∨ f.ClassType = CONTROLLER)
    (hst : st = FABRIC_ONLINE ∨ st = FABRIC_OFFLINE ∨ st = FABRIC_DISCONNECTED) :
    (f.StatusMessage st s).1 =
      f.RootTopic ++ "/" ++ f.NodeName ++ "/$commands/$clients/sysctl/" ++ f.PlatformID
        ++ "/status" ∧
    ('/' ∉ f.RootTopic.data → '/' ∉ f.NodeName.data → '/' ∉ f.PlatformID.data →
      Split (f.StatusMessage st s).1 '/' =
        [f.RootTopic, f.NodeName, "$commands", "$clients", "sysctl", f.PlatformID, "status"] ∧
      (Split (f.StatusMessage st s).1 '/').length = 7 ∧
      (Split (f.StatusMessage st s).1 '/')[2]? = some "$commands" ∧
      (Split (f.StatusMessage st s).1 '/')[3]? = some "$clients" ∧
      (Split (f.StatusMessage st s).1 '/')[6]? = some "status") := by
  have htopic : (f.StatusMessage st s).1 =
      f.RootTopic ++ "/" ++ f.NodeName ++ "/$commands/$clients/sysctl/" ++ f.PlatformID
        ++ "/status" := by
    rw [← status_topic_eq]
    rcases hrole with hr | hr <;> rcases hst with hs | hs | hs
    · rw [StatusMessage_valid f st s "device" "online" (some s)
        (Or.inl ⟨hr, rfl⟩) (Or.inl ⟨hs, rfl, rfl⟩)]
    · rw [StatusMessage_valid f st s "device" "offline" (some s)
        (Or.inl ⟨hr, rfl⟩) (Or.inr (Or.inl ⟨hs, rfl, rfl⟩))]
    · rw [StatusMessage_valid f st s "device" "disconnected" none
        (Or.inl ⟨hr, rfl⟩) (Or.inr (Or.inr ⟨hs, rfl, rfl⟩))]
    · rw [StatusMessage_valid f st s "controller" "online" (some s)
        (Or.inr ⟨hr, rfl⟩) (Or.inl ⟨hs, rfl, rfl⟩)]
    · rw [StatusMessage_valid f st s "controller" "offline" (some s)
        (Or.inr ⟨hr, rfl⟩) (Or.inr (Or.inl ⟨hs, rfl, rfl⟩))]
    · rw [StatusMessage_valid f st s "controller" "disconnected" none
        (Or.inr ⟨hr, rfl⟩) (Or.inr (Or.inr ⟨hs, rfl, rfl⟩))]
  refine ⟨htopic, fun hr hn hp => ?_⟩
  have hsplit : Split (f.StatusMessage st s).1 '/' =
      [f.RootTopic, f.NodeName, "$commands", "$clients", "sysctl", f.PlatformID, "status"] := by
    have e1 : ("/$commands/$clients/sysctl/" : String) =
        "/" ++ ("$commands" ++ ("/" ++ ("$clients" ++ ("/" ++ ("sysctl" ++ "/"))))) := by decide
    have e2 : ("/status" : String) = "/" ++ "status" := by decide
    rw [htopic, e1, e2]
    simp only [String.append_assoc]
    rw [Split_append_sep _ _ hr, Split_append_sep _ _ hn, Split_append_sep _ _ (by decide),
      Split_append_sep _ _ (by decide), Split_append_sep _ _ (by decide),
      Split_append_sep _ _ hp, Split_of_not_mem _ (by decide)]
  rw [hsplit]
  simp

theorem status_topic_shape_witness :
    ((FabricInitialize "home" "kitchen" "esp" DEVICE).StatusMessage FABRIC_OFFLINE 7).1 =
      "home" ++ "/" ++ "kitchen" ++ "/$commands/$clients/sysctl/" ++ "esp" ++ "/status" :=
  (status_topic_shape (FabricInitialize "home" "kitchen" "esp" DEVICE) FABRIC_OFFLINE 7
    (Or.inl (by decide)) (Or.inr (Or.inl rfl))).1

/-! ## The status body -/

/-- A character that `encoding/json` copies into a string literal as it is. -/
theorem escapeChar_plain (c : Char)
    (h : 32 ≤ c.toNat ∧ c ≠ '"' ∧ c ≠ '\\' ∧ c ≠ '<' ∧ c ≠ '>' ∧ c ≠ '&' ∧
      c.toNat ≠ 0x2028 ∧ c.toNat ≠ 0x2029) : escapeChar c = [c] := by
  obtain ⟨h32, h1, h2, h3, h4, h5, h6, h7⟩ := h
  have hn : c ≠ '\n' := by
    rintro rfl
    revert h32
    decide
  have hr : c ≠ '\r' := by
    rintro rfl
    revert h32
    decide
  have ht : c ≠ '\t' := by
    rintro rfl
    revert h32
    decide
  unfold escapeChar
  rw [if_neg (by simp only [not_or]; exact ⟨h2, h1⟩), if_neg hn, if_neg hr, if_neg ht,
    if_neg (by simp only [not_or, not_lt]; exact ⟨h32, h3, h4, h5⟩),
    if_neg (by simp only [not_or]; exact ⟨h6, h7⟩)]

/-- A string without a character to escape is quoted as it is. -/
theorem quote_plain (s : String)
    (h : ∀ c ∈ s.data, 32 ≤ c.toNat ∧ c ≠ '"' ∧ c ≠ '\\' ∧ c ≠ '<' ∧ c ≠ '>' ∧ c ≠ '&' ∧
      c.toNat ≠ 0x2028 ∧ c.toNat ≠ 0x2029) : quote s = "\"" ++ s ++ "\"" := by
  have hflat : ∀ l : List Char, (∀ c ∈ l, escapeChar c = [c]) → l.flatMap escapeChar = l := by
    intro l
    induction l with
    | nil => intro _; rfl
    | cons a rest ih =>
      intro hl
      rw [List.flatMap_cons, hl a (List.mem_cons_self _ _),
        ih (fun c hc => hl c (List.mem_cons_of_mem _ hc))]
      rfl
  unfold quote
  rw [hflat s.data (fun c hc => escapeChar_plain c (h c hc))]

/-- C11. Status body content: for a valid role and a valid status the body returned by
`StatusMessage` is the text of a JSON object with the single key `d`, whose object has, in
this order, `_type` = `status`, `status` = `online`, `offline` or `disconnected` according to
the status, `uptime`, `nodename` = `NodeName`, `platform_id` = `PlatformID` and `class` =
`device` for a `DEVICE`, `controller` for a `CONTROLLER`. The two names are written as JSON
string literals; when neither holds a character that JSON escapes, they stand in the body as
they are, between double quotes. -/
theorem status_body_content (f : Fabric) (st : Status) (s : Int) (cls label up : String)
    (hrole : (f.ClassType = DEVICE ∧ cls = "device") ∨
      (f.ClassType = CONTROLLER ∧ cls = "controller"))
    (hst : (st = FABRIC_ONLINE ∧ label = "online" ∧ up = formatInt s) ∨
      (st = FABRIC_OFFLINE ∧ label = "offline" ∧ up = formatInt s) ∨
      (st = FABRIC_DISCONNECTED ∧ label = "disconnected" ∧ up = "null")) :
    (f.StatusMessage st s).2 =
      "\x7b" ++ "\"d\"" ++ ":" ++ "\x7b" ++ "\"_type\"" ++ ":" ++ "\"status\"" ++ ","
        ++ "\"status\"" ++ ":" ++ "\"" ++ label ++ "\"" ++ ","
        ++ "\"uptime\"" ++ ":" ++ up ++ ","
        ++ "\"nodename\"" ++ ":" ++ quote f.NodeName ++ ","
        ++ "\"platform_id\"" ++ ":" ++ quote f.PlatformID ++ ","
        ++ "\"class\"" ++ ":" ++ "\"" ++ cls ++ "\"" ++ "\x7d" ++ "\x7d" ∧
    ((∀ c ∈ f.NodeName.data ++ f.PlatformID.data,
        32 ≤ c.toNat ∧ c ≠ '"' ∧ c ≠ '\\' ∧ c ≠ '<' ∧ c ≠ '>' ∧ c ≠ '&' ∧
        c.toNat ≠ 0x2028 ∧ c.toNat ≠ 0x2029) →
      (f.StatusMessage st s).2 =
        "\x7b" ++ "\"d\"" ++ ":" ++ "\x7b" ++ "\"_type\"" ++ ":" ++ "\"status\"" ++ ","
          ++ "\"status\"" ++ ":" ++ "\"" ++ label ++ "\"" ++ ","
          ++ "\"uptime\"" ++ ":" ++ up ++ ","
          ++ "\"nodename\"" ++ ":" ++ "\"" ++ f.NodeName ++ "\"" ++ ","
          ++ "\"platform_id\"" ++ ":" ++ "\"" ++ f.PlatformID ++ "\"" ++ ","
          ++ "\"class\"" ++ ":" ++ "\"" ++ cls ++ "\"" ++ "\x7d" ++ "\x7d") := by
  have q0 : quote "status" = "\"status\"" := by decide
  have hcls : quote cls = "\"" ++ cls ++ "\"" := by
    rcases hrole with ⟨_, rfl⟩ | ⟨_, rfl⟩ <;> decide
  have hlabel : quote label = "\"" ++ label ++ "\"" := by
    rcases hst with ⟨_, rfl, _⟩ | ⟨_, rfl, _⟩ | ⟨_, rfl, _⟩ <;> decide
  have main : (f.StatusMessage st s).2 =
      "\x7b" ++ "\"d\"" ++ ":" ++ "\x7b" ++ "\"_type\"" ++ ":" ++ "\"status\"" ++ ","
        ++ "\"status\"" ++ ":" ++ quote label ++ ","
        ++ "\"uptime\"" ++ ":" ++ up ++ ","
        ++ "\"nodename\"" ++ ":" ++ quote f.NodeName ++ ","
        ++ "\"platform_id\"" ++ ":" ++ quote f.PlatformID ++ ","
        ++ "\"class\"" ++ ":" ++ quote cls ++ "\x7d" ++ "\x7d" := by
    rcases hst with ⟨hs, hl, rfl⟩ | ⟨hs, hl, rfl⟩ | ⟨hs, hl, rfl⟩
    · rw [StatusMessage_valid f st s cls label (some s) hrole (Or.inl ⟨hs, hl, rfl⟩),
        Marshal_eq]
      simp only [q0]
    · rw [StatusMessage_valid f st s cls label (some s) hrole
        (Or.inr (Or.inl ⟨hs, hl, rfl⟩)), Marshal_eq]
      simp only [q0]
    · rw [StatusMessage_valid f st s cls label none hrole
        (Or.inr (Or.inr ⟨hs, hl, rfl⟩)), Marshal_eq]
      simp only [q0]
  rw [hcls, hlabel] at main
  refine ⟨by simpa only [String.append_assoc] using main, fun hplain => ?_⟩
  have hn := quote_plain f.NodeName (fun c hc => hplain c (List.mem_append.mpr (Or.inl hc)))
  have hp := quote_plain f.PlatformID (fun c hc => hplain c (List.mem_append.mpr (Or.inr hc)))
  rw [hn, hp] at main
  simpa only [String.append_assoc] using main

theorem status_body_content_witness :
    ((FabricInitialize "home" "ctrl" "linux" CONTROLLER).StatusMessage FABRIC_OFFLINE 42).2 =
      "\x7b\"d\":\x7b\"_type\":\"status\",\"status\":\"offline\",\"uptime\":42,\"nodename\":\"ctrl\",\"platform_id\":\"linux\",\"class\":\"controller\"\x7d\x7d" :=
  ((status_body_content (FabricInitialize "home" "ctrl" "linux" CONTROLLER) FABRIC_OFFLINE 42
    "controller" "offline" "42" (Or.inr ⟨rfl, rfl⟩) (Or.inr (Or.inl ⟨rfl, rfl, by decide⟩))).2
    (by decide)).trans (by decide)

/-! ## Callback slots and command topics -/

/-- C17. Callback slots: each of the onramp and offramp slots holds one handler and the last
registration wins. After `SetOnOnrampHandler(h1)` then `SetOnOnrampHandler(h2)` an eligible
onramp message produces exactly one callback invocation, of `h2`; the same holds for the
offramp slot; and each of the two setters leaves the other three slots and the identity
unchanged. -/
theorem callback_slots (m : MqttFabric) (h1 h2 : Nat) (payload : String) :
    (∀ topic t0 t1 t4 t5 t6 rest,
      Split topic '/' = t0 :: t1 :: "$feeds" :: "$onramp" :: t4 :: t5 :: t6 :: rest →
      (m.F.ClassType = CONTROLLER ∨ (m.F.ClassType = DEVICE ∧ t1 ≠ m.F.NodeName)) →
      (onMessage ((m.SetOnOnrampHandler (some h1)).SetOnOnrampHandler (some h2))
        topic payload).calls = [Call.onramp h2 t1 t4 t5 t6 payload]) ∧
    (∀ topic t0 t1 t4 t5 t6 t7 t8 t9 rest,
      Split topic '/' =
        t0 :: t1 :: "$feeds" :: "$offramp" :: t4 :: t5 :: t6 :: t7 :: t8 :: t9 :: rest →
      (m.F.ClassType = DEVICE ∨ (m.F.ClassType = CONTROLLER ∧ t1 ≠ m.F.NodeName)) →
      (onMessage ((m.SetOnOfframpHandler (some h1)).SetOnOfframpHandler (some h2))
        topic payload).calls = [Call.offramp h2 t1 t4 t5 t6 t7 t8 t9 payload]) ∧
    (∀ h, (m.SetOnOnrampHandler h).OnOnramp = h ∧
      (m.SetOnOnrampHandler h).OnOfframp = m.OnOfframp ∧
      (m.SetOnOnrampHandler h).OnConnect = m.OnConnect ∧
      (m.SetOnOnrampHandler h).OnDisconnect = m.OnDisconnect ∧
      (m.SetOnOnrampHandler h).F = m.F) ∧
    (∀ h, (m.SetOnOfframpHandler h).OnOfframp = h ∧
      (m.SetOnOfframpHandler h).OnOnramp = m.OnOnramp ∧
      (m.SetOnOfframpHandler h).OnConnect = m.OnConnect ∧
      (m.SetOnOfframpHandler h).OnDisconnect = m.OnDisconnect ∧
      (m.SetOnOfframpHandler h).F = m.F) := by
  refine ⟨?_, ?_, fun h => ⟨rfl, rfl, rfl, rfl, rfl⟩, fun h => ⟨rfl, rfl, rfl, rfl, rfl⟩⟩
  · intro topic t0 t1 t4 t5 t6 rest hs helig
    rw [onMessage_of_body _ topic payload _
      (onMessageBody_onramp _ topic payload t0 t1 t4 t5 t6 rest hs)]
    have hcd : (DEVICE : Int) ≠ CONTROLLER := by decide
    rcases helig with hc | ⟨hd, hn⟩
    · simp [onrampCalls, MqttFabric.SetOnOnrampHandler, hc]
    · simp [onrampCalls, MqttFabric.SetOnOnrampHandler, hd, hn, hcd]
  · intro topic t0 t1 t4 t5 t6 t7 t8 t9 rest hs helig
    rw [onMessage_of_body _ topic payload _
      (onMessageBody_offramp _ topic payload t0 t1 t4 t5 t6 t7 t8 t9 rest hs)]
    have hcd : (CONTROLLER : Int) ≠ DEVICE := by decide
    rcases helig with hd | ⟨hc, hn⟩
    · simp [offrampCalls, MqttFabric.SetOnOfframpHandler, hd]
    · simp [offrampCalls, MqttFabric.SetOnOfframpHandler, hc, hn, hcd]

theorem callback_slots_witness :
    (onMessage
      ((MqttFabric.SetOnOnrampHandler
          ⟨FabricInitialize "home" "ctrl" "linux" CONTROLLER, none, none, none, none⟩
          (some 1)).SetOnOnrampHandler (some 2))
      "home/kitchen/$feeds/$onramp/esp/text/temp" "21").calls =
      [Call.onramp 2 "kitchen" "esp" "text" "temp" "21"] :=
  (callback_slots ⟨FabricInitialize "home" "ctrl" "linux" CONTROLLER, none, none, none, none⟩
    1 2 "21").1 "home/kitchen/$feeds/$onramp/esp/text/temp" "home" "kitchen" "esp" "text" "temp"
    [] (by decide) (Or.inl (by decide))

/-- The segments of the status topic of a slash-free identity. -/
theorem Split_status_topic (f : Fabric) (hr : '/' ∉ f.RootTopic.data)
    (hn : '/' ∉ f.NodeName.data) (hp : '/' ∉ f.PlatformID.data) :
    Split (f.RootTopic ++ "/" ++ f.NodeName ++ "/$commands/$clients/" ++ FABRIC_SYS ++ "/"
      ++ f.PlatformID ++ "/" ++ FABRIC_CMD_STATUS) '/' =
      [f.RootTopic, f.NodeName, "$commands", "$clients", "sysctl", f.PlatformID, "status"] := by
  have e1 : ("/$commands/$clients/" : String) =
      "/" ++ ("$commands" ++ ("/" ++ ("$clients" ++ "/"))) := by decide
  have e2 : FABRIC_SYS = "sysctl" := rfl
  have e3 : FABRIC_CMD_STATUS = "status" := rfl
  rw [e1, e2, e3]
  simp only [String.append_assoc]
  rw [Split_append_sep _ _ hr, Split_append_sep _ _ hn, Split_append_sep _ _ (by decide),
    Split_append_sep _ _ (by decide), Split_append_sep _ _ (by decide),
    Split_append_sep _ _ hp, Split_of_not_mem _ (by decide)]

/-- C18. Command topics never reach a callback: a topic with at least 7 segments whose
segment 2 is `$commands` ends in the commands arm with `(nodename, actorID, platformID, cmd)`
read from segments 1, 4, 5 and 6, and neither callback is invoked, whatever the role and the
slots. In particular the status topic of a slash-free identity is classified as a command
with `(NodeName, "sysctl", PlatformID, "status")`. -/
theorem command_topic_no_callback (m : MqttFabric) (payload : String) :
    (∀ topic nodename actorID platformID cmd,
      7 ≤ (Split topic '/').length →
      (Split topic '/')[2]? = some "$commands" →
      (Split topic '/')[1]? = some nodename →
      (Split topic '/')[4]? = some actorID →
      (Split topic '/')[5]? = some platformID →
      (Split topic '/')[6]? = some cmd →
      (onMessage m topic payload).branch = Branch.commands nodename actorID platformID cmd ∧
      (onMessage m topic payload).calls = [] ∧
      (onMessage m topic payload).invokesOnramp = false ∧
      (onMessage m topic payload).invokesOfframp = false) ∧
    (∀ (f : Fabric) (st : Status) (s : Int),
      (f.ClassType = DEVICE ∨ f.ClassType = CONTROLLER) →
      (st = FABRIC_ONLINE ∨ st = FABRIC_OFFLINE ∨ st = FABRIC_DISCONNECTED) →
      '/' ∉ f.RootTopic.data → '/' ∉ f.NodeName.data → '/' ∉ f.PlatformID.data →
      onMessage m (f.StatusMessage st s).1 payload =
        ⟨Branch.commands f.NodeName "sysctl" f.PlatformID "status", []⟩) := by
  constructor
  · intro topic nodename actorID platformID cmd hlen h2 h1 h4 h5 h6
    obtain ⟨t0, t1, t2, t3, t4, t5, t6, rest, e⟩ := tokens_of_seven_le (Split topic '/') hlen
    rw [e] at h1 h2 h4 h5 h6
    simp only [List.getElem?_cons_succ, List.getElem?_cons_zero, Option.some.injEq] at h1 h2 h4 h5 h6
    subst h1 h2 h4 h5 h6
    rw [onMessage_of_body m topic payload _
      (onMessageBody_commands m topic payload t0 t1 t3 t4 t5 t6 rest e)]
    simp [Outcome.invokesOnramp, Outcome.invokesOfframp]
  · intro f st s hrole hst hr hn hp
    have htopic : (f.StatusMessage st s).1 =
        f.RootTopic ++ "/" ++ f.NodeName ++ "/$commands/$clients/" ++ FABRIC_SYS ++ "/"
          ++ f.PlatformID ++ "/" ++ FABRIC_CMD_STATUS := by
      rcases hrole with hr | hr <;> rcases hst with hs | hs | hs
      · rw [StatusMessage_valid f st s "device" "online" (some s)
          (Or.inl ⟨hr, rfl⟩) (Or.inl ⟨hs, rfl, rfl⟩)]
      · rw [StatusMessage_valid f st s "device" "offline" (some s)
          (Or.inl ⟨hr, rfl⟩) (Or.inr (Or.inl ⟨hs, rfl, rfl⟩))]
      · rw [StatusMessage_valid f st s "device" "disconnected" none
          (Or.inl ⟨hr, rfl⟩) (Or.inr (Or.inr ⟨hs, rfl, rfl⟩))]
      · rw [StatusMessage_valid f st s "controller" "online" (some s)
          (Or.inr ⟨hr, rfl⟩) (Or.inl ⟨hs, rfl, rfl⟩)]
      · rw [StatusMessage_valid f st s "controller" "offline" (some s)
          (Or.inr ⟨hr, rfl⟩) (Or.inr (Or.inl ⟨hs, rfl, rfl⟩))]
      · rw [StatusMessage_valid f st s "controller" "disconnected" none
          (Or.inr ⟨hr, rfl⟩) (Or.inr (Or.inr ⟨hs, rfl, rfl⟩))]
    rw [htopic]
    exact onMessage_of_body m _ payload _
      (onMessageBody_commands m _ payload f.RootTopic f.NodeName "$clients" "sysctl"
        f.PlatformID "status" [] (Split_status_topic f hr hn hp))

theorem command_topic_no_callback_witness :
    onMessage ⟨FabricInitialize "home" "ctrl" "linux" CONTROLLER, none, none, some 1, some 2⟩
        ((FabricInitialize "home" "kitchen" "esp" DEVICE).StatusMessage FABRIC_ONLINE 42).1
        "x" = ⟨Branch.commands "kitchen" "sysctl" "esp" "status", []⟩ :=
  (command_topic_no_callback
    ⟨FabricInitialize "home" "ctrl" "linux" CONTROLLER, none, none, some 1, some 2⟩ "x").2
    (FabricInitialize "home" "kitchen" "esp" DEVICE) FABRIC_ONLINE 42
    (Or.inl (by decide)) (Or.inl rfl) (by decide) (by decide) (by decide)

/-! ## bluemix.go : reading numbers -/

theorem bitLength_spec (fuel n : Nat) (hf : n ≤ fuel) (hn : 1 ≤ n) :
    2 ^ bitLength fuel n ≤ n ∧ n < 2 ^ (bitLength fuel n + 1) := by
  induction fuel generalizing n with
  | zero => omega
  | succ fuel ih =>
    unfold bitLength
    by_cases h2 : n < 2
    · rw [if_pos h2]
      have : n = 1 := by omega
      subst this
      decide
    · rw [if_neg h2]
      have hdiv : n / 2 ≤ fuel := by omega
      have hpos : 1 ≤ n / 2 := by omega
      obtain ⟨h1, h3⟩ := ih (n / 2) hdiv hpos
      have e1 : 2 ^ (bitLength fuel (n / 2) + 1) = 2 * 2 ^ bitLength fuel (n / 2) := by
        rw [pow_succ]
        ring
      have e2 : 2 ^ (bitLength fuel (n / 2) + 1 + 1) = 2 * 2 ^ (bitLength fuel (n / 2) + 1) := by
        rw [pow_succ]
        ring
      rw [e2]
      rw [e1] at h3 ⊢
      constructor <;> omega

theorem ilog2_spec (n : Nat) (hn : 1 ≤ n) : 2 ^ ilog2 n ≤ n ∧ n < 2 ^ (ilog2 n + 1) :=
  bitLength_spec n n (Nat.le_refl n) hn

theorem ilog2_lt (n k : Nat) (hn : 1 ≤ n) (h : n < 2 ^ k) : ilog2 n < k := by
  have h1 := (ilog2_spec n hn).1
  exact (Nat.pow_lt_pow_iff_right (by decide : 1 < 2)).mp (lt_of_le_of_lt h1 h)

theorem sign_mul_natAbs (z : Int) : (if z < 0 then -1 else 1) * (z.natAbs : Int) = z := by
  split_ifs with h <;> omega

/-- An integer of magnitude below `2 ^ 53` is read exactly. -/
theorem roundFloat64_intCast_lt (z : Int) (hz : z ≠ 0) (h : z.natAbs < 2 ^ 53) :
    roundFloat64 (z : ℚ) = some (z : ℚ) := by
  have hn1 : 1 ≤ z.natAbs := by omega
  have hspec := ilog2_spec z.natAbs hn1
  have ha : ilog2 z.natAbs < 53 := ilog2_lt z.natAbs 53 hn1 h
  have hb : ilog2 1 = 0 := rfl
  have hn0 : z.natAbs ≠ 0 := by omega
  unfold roundFloat64
  simp only [Rat.intCast_num, Rat.intCast_den, hb, hn0, if_false]
  generalize ilog2 z.natAbs = a at hspec ha
  have h1 : ¬ (0 + 1025 ≤ a) := by omega
  have h2 : 1 * 2 ^ a ≤ z.natAbs * 2 ^ 0 := by simpa using hspec.1
  have he : max ((a : Int) - ((0 : Nat) : Int) - 0 - 52) (-1074) = (a : Int) - 52 := by
    rw [max_eq_left] <;> omega
  simp only [h1, h2, if_true, if_false, he]
  have hto : ((a : Int) - 52).toNat = 0 := by omega
  have hneg : (-((a : Int) - 52)).toNat = 52 - a := by omega
  simp only [hto, hneg, pow_zero, mul_one, Nat.div_one, Nat.mod_one, Nat.mul_zero,
    Nat.zero_lt_one, if_true]
  have h3 : ¬ (972 ≤ (a : Int) - 52 ∨ (a : Int) - 52 = 971 ∧ z.natAbs * 2 ^ (52 - a) = 2 ^ 53) := by
    omega
  rw [if_neg h3]
  by_cases h52 : 0 ≤ (a : Int) - 52
  · rw [if_pos h52]
    have : a = 52 := by omega
    subst this
    simp only [Nat.sub_self, pow_zero, mul_one]
    rw [sign_mul_natAbs]
  · rw [if_neg h52]
    congr 1
    have hk : (2 ^ (52 - a) : Nat) ≠ 0 := by positivity
    have : (if z < 0 then (-1 : Int) else 1) * ((z.natAbs * 2 ^ (52 - a) : Nat) : Int) =
        z * ((2 ^ (52 - a) : Nat) : Int) := by
      rw [Nat.cast_mul, ← mul_assoc, sign_mul_natAbs]
    rw [this, Rat.mkRat_eq_div]
    push_cast
    field_simp

/-- An integer of magnitude at most `2 ^ 53` is a double: reading it does not round. -/
theorem roundFloat64_intCast (z : Int) (h : |z| ≤ 2 ^ 53) :
    roundFloat64 (z : ℚ) = some (z : ℚ) := by
  have habs := abs_le.mp h
  by_cases h0 : z = 0
  · subst h0
    rfl
  · by_cases hlt : z.natAbs < 2 ^ 53
    · exact roundFloat64_intCast_lt z h0 hlt
    · have hcase : z = 2 ^ 53 ∨ z = -2 ^ 53 := by omega
      rcases hcase with rfl | rfl
      · rfl
      · rfl

/-! ## bluemix.go : the loops of `BlueMixParse` -/

theorem lookup_of_mem_nodup {β : Type} (l : List (String × β)) (k : String) (v : β)
    (hnd : (l.map Prod.fst).Nodup) (hmem : (k, v) ∈ l) : l.lookup k = some v := by
  induction l with
  | nil => simp at hmem
  | cons kv rest ih =>
    obtain ⟨k', v'⟩ := kv
    simp only [List.map_cons, List.nodup_cons, List.mem_map, Prod.exists, exists_and_right,
      exists_eq_right, not_exists] at hnd
    rcases List.mem_cons.mp hmem with h | h
    · cases h
      simp
    · have hne : k ≠ k' := fun e => hnd.1 v (e ▸ h)
      rw [List.lookup_cons]
      have : (k == k') = false := by simpa using hne
      rw [this]
      exact ih hnd.2 h

theorem SetValue_Type (o : BlueMixObject) (v : Any) : (o.SetValue v).1.Type_ = o.Type_ := by
  cases v <;> rfl

theorem SetValue_FeedID (o : BlueMixObject) (v : Any) : (o.SetValue v).1.FeedID = o.FeedID := by
  cases v <;> rfl

/-- What `SetValue` leaves in `T`, as a function of the old `T` and the argument. -/
theorem SetValue_T (o : BlueMixObject) (v : Any) :
    (o.SetValue v).1.T = ((⟨"", "", o.T⟩ : BlueMixObject).SetValue v).1.T := by
  cases v <;> rfl

theorem parseField_Type_of_ne (st : ParseState) (kv : String × Any) (h : kv.1 ≠ "_type") :
    (parseField st kv).b.Type_ = st.b.Type_ := by
  unfold parseField
  split_ifs <;> simp_all [BlueMixObject.SetFeedID, SetValue_Type]

theorem parseField_FeedID_of_ne (st : ParseState) (kv : String × Any) (h : kv.1 ≠ "feed_id") :
    (parseField st kv).b.FeedID = st.b.FeedID := by
  unfold parseField
  split_ifs <;> simp_all [BlueMixObject.SetType, SetValue_FeedID]

theorem parseField_T_of_ne (st : ParseState) (kv : String × Any) (h : kv.1 ≠ "value") :
    (parseField st kv).b.T = st.b.T := by
  unfold parseField
  split_ifs <;> simp_all [BlueMixObject.SetType, BlueMixObject.SetFeedID]

theorem foldl_parseField_Type_of_not_mem (parsed : List (String × Any)) (st : ParseState)
    (h : "_type" ∉ parsed.map Prod.fst) :
    (parsed.foldl parseField st).b.Type_ = st.b.Type_ := by
  induction parsed generalizing st with
  | nil => rfl
  | cons kv rest ih =>
    simp only [List.map_cons, List.mem_cons, not_or] at h
    rw [List.foldl_cons, ih _ h.2, parseField_Type_of_ne st kv (fun e => h.1 e.symm)]

theorem foldl_parseField_FeedID_of_not_mem (parsed : List (String × Any)) (st : ParseState)
    (h : "feed_id" ∉ parsed.map Prod.fst) :
    (parsed.foldl parseField st).b.FeedID = st.b.FeedID := by
  induction parsed generalizing st with
  | nil => rfl
  | cons kv rest ih =>
    simp only [List.map_cons, List.mem_cons, not_or] at h
    rw [List.foldl_cons, ih _ h.2, parseField_FeedID_of_ne st kv (fun e => h.1 e.symm)]

theorem foldl_parseField_T_of_not_mem (parsed : List (String × Any)) (st : ParseState)
    (h : "value" ∉ parsed.map Prod.fst) :
    (parsed.foldl parseField st).b.T = st.b.T := by
  induction parsed generalizing st with
  | nil => rfl
  | cons kv rest ih =>
    simp only [List.map_cons, List.mem_cons, not_or] at h
    rw [List.foldl_cons, ih _ h.2, parseField_T_of_ne st kv (fun e => h.1 e.symm)]

/-- In a map with distinct keys the `_type` member, when a string, ends up in `Type`. -/
theorem foldl_parseField_Type (parsed : List (String × Any)) (st : ParseState) (t : String)
    (hnd : (parsed.map Prod.fst).Nodup) (hmem : ("_type", Any.string t) ∈ parsed) :
    (parsed.foldl parseField st).b.Type_ = t := by
  induction parsed generalizing st with
  | nil => simp at hmem
  | cons kv rest ih =>
    simp only [List.map_cons, List.nodup_cons] at hnd
    rw [List.foldl_cons]
    rcases List.mem_cons.mp hmem with h | h
    · subst h
      rw [foldl_parseField_Type_of_not_mem rest _ hnd.1]
      simp [parseField, isString, BlueMixObject.SetType, Any.assertString]
    · exact ih _ hnd.2 h

theorem foldl_parseField_FeedID (parsed : List (String × Any)) (st : ParseState) (f : String)
    (hnd : (parsed.map Prod.fst).Nodup) (hmem : ("feed_id", Any.string f) ∈ parsed) :
    (parsed.foldl parseField st).b.FeedID = f := by
  induction parsed generalizing st with
  | nil => simp at hmem
  | cons kv rest ih =>
    simp only [List.map_cons, List.nodup_cons] at hnd
    rw [List.foldl_cons]
    rcases List.mem_cons.mp hmem with h | h
    · subst h
      rw [foldl_parseField_FeedID_of_not_mem rest _ hnd.1]
      simp [parseField, isString, BlueMixObject.SetFeedID, Any.assertString]
    · exact ih _ hnd.2 h

/-- In a map with distinct keys `T` ends up as `SetValue` leaves it for the `value` member. -/
theorem foldl_parseField_T (parsed : List (String × Any)) (st : ParseState) (v : Any)
    (hnd : (parsed.map Prod.fst).Nodup) (hmem : ("value", v) ∈ parsed) :
    ∃ st0 : ParseState, st0.b.T = st.b.T ∧
      (parsed.foldl parseField st).b.T = (st0.b.SetValue v).1.T := by
  induction parsed generalizing st with
  | nil => simp at hmem
  | cons kv rest ih =>
    simp only [List.map_cons, List.nodup_cons] at hnd
    rw [List.foldl_cons]
    rcases List.mem_cons.mp hmem with h | h
    · subst h
      rw [foldl_parseField_T_of_not_mem rest _ hnd.1]
      exact ⟨st, rfl, by simp [parseField]⟩
    · have hk : kv.1 ≠ "value" := by
        intro e
        apply hnd.1
        rw [e]
        exact List.mem_map.mpr ⟨("value", v), h, rfl⟩
      obtain ⟨st0, h0, h1⟩ := ih (parseField st kv) hnd.2 h
      exact ⟨st0, by rw [h0, parseField_T_of_ne st kv hk], h1⟩

theorem parseField_gotType (st : ParseState) (kv : String × Any) :
    (parseField st kv).gotType =
      (st.gotType || (decide (kv.1 = "_type") && isString kv.2)) := by
  unfold parseField
  split_ifs <;> simp_all

theorem parseField_gotFeedID (st : ParseState) (kv : String × Any) :
    (parseField st kv).gotFeedID =
      (st.gotFeedID || (decide (kv.1 = "feed_id") && isString kv.2)) := by
  unfold parseField
  split_ifs <;> simp_all

theorem parseField_gotValue (st : ParseState) (kv : String × Any) :
    (parseField st kv).gotValue = (st.gotValue || decide (kv.1 = "value")) := by
  unfold parseField
  split_ifs <;> simp_all

theorem foldl_parseField_gotType (parsed : List (String × Any)) (st : ParseState) :
    (parsed.foldl parseField st).gotType =
      (st.gotType || parsed.any (fun kv => decide (kv.1 = "_type") && isString kv.2)) := by
  induction parsed generalizing st with
  | nil => simp
  | cons kv rest ih =>
    rw [List.foldl_cons, ih, parseField_gotType, List.any_cons, Bool.or_assoc]

theorem foldl_parseField_gotFeedID (parsed : List (String × Any)) (st : ParseState) :
    (parsed.foldl parseField st).gotFeedID =
      (st.gotFeedID || parsed.any (fun kv => decide (kv.1 = "feed_id") && isString kv.2)) := by
  induction parsed generalizing st with
  | nil => simp
  | cons kv rest ih =>
    rw [List.foldl_cons, ih, parseField_gotFeedID, List.any_cons, Bool.or_assoc]

theorem foldl_parseField_gotValue (parsed : List (String × Any)) (st : ParseState) :
    (parsed.foldl parseField st).gotValue =
      (st.gotValue || parsed.any (fun kv => decide (kv.1 = "value"))) := by
  induction parsed generalizing st with
  | nil => simp
  | cons kv rest ih =>
    rw [List.foldl_cons, ih, parseField_gotValue, List.any_cons, Bool.or_assoc]

/-- The outer loop visits the key `d` at most once when the keys are distinct. -/
theorem parseKeys_of_nodup (objmap keys : List (String × Option Doc)) (st : ParseState)
    (hnd : (keys.map Prod.fst).Nodup) :
    parseKeys objmap keys st =
      if "d" ∈ keys.map Prod.fst then parseD objmap st else Except.ok st := by
  induction keys generalizing st with
  | nil => simp [parseKeys]
  | cons kv rest ih =>
    simp only [List.map_cons, List.nodup_cons] at hnd
    by_cases hk : kv.1 = "d"
    · have hrest : "d" ∉ rest.map Prod.fst := hk ▸ hnd.1
      simp only [parseKeys, hk, if_true, List.map_cons, List.mem_cons, true_or]
      cases hd : parseD objmap st with
      | error r => rfl
      | ok st1 => simp [ih st1 hnd.2, hrest]
    · have hk' : ¬ "d" = kv.1 := fun e => hk e.symm
      simp only [parseKeys, hk, if_false, List.map_cons, List.mem_cons, hk', false_or]
      exact ih st hnd.2

theorem any_type_iff (parsed : List (String × Any)) :
    parsed.any (fun kv => decide (kv.1 = "_type") && isString kv.2) = true ↔
      ∃ t, ("_type", Any.string t) ∈ parsed := by
  rw [List.any_eq_true]
  constructor
  · rintro ⟨⟨k, v⟩, hmem, h⟩
    simp only [Bool.and_eq_true, decide_eq_true_eq] at h
    obtain ⟨rfl, hv⟩ := h
    cases v <;> simp [isString] at hv
    exact ⟨_, hmem⟩
  · rintro ⟨t, hmem⟩
    exact ⟨_, hmem, by simp [isString]⟩

theorem any_feed_iff (parsed : List (String × Any)) :
    parsed.any (fun kv => decide (kv.1 = "feed_id") && isString kv.2) = true ↔
      ∃ f, ("feed_id", Any.string f) ∈ parsed := by
  rw [List.any_eq_true]
  constructor
  · rintro ⟨⟨k, v⟩, hmem, h⟩
    simp only [Bool.and_eq_true, decide_eq_true_eq] at h
    obtain ⟨rfl, hv⟩ := h
    cases v <;> simp [isString] at hv
    exact ⟨_, hmem⟩
  · rintro ⟨t, hmem⟩
    exact ⟨_, hmem, by simp [isString]⟩

theorem any_value_iff (parsed : List (String × Any)) :
    parsed.any (fun kv => decide (kv.1 = "value")) = true ↔ ∃ v, ("value", v) ∈ parsed := by
  rw [List.any_eq_true]
  constructor
  · rintro ⟨⟨k, v⟩, hmem, h⟩
    simp only [decide_eq_true_eq] at h
    subst h
    exact ⟨_, hmem⟩
  · rintro ⟨v, hmem⟩
    exact ⟨_, hmem, by simp⟩

theorem foldl_parseField_flags (parsed : List (String × Any)) :
    ((parsed.foldl parseField ⟨NewBlueMixObject, false, false, false⟩).gotType = true ↔
      ∃ t, ("_type", Any.string t) ∈ parsed) ∧
    ((parsed.foldl parseField ⟨NewBlueMixObject, false, false, false⟩).gotFeedID = true ↔
      ∃ f, ("feed_id", Any.string f) ∈ parsed) ∧
    ((parsed.foldl parseField ⟨NewBlueMixObject, false, false, false⟩).gotValue = true ↔
      ∃ v, ("value", v) ∈ parsed) := by
  have h1 := foldl_parseField_gotType parsed ⟨NewBlueMixObject, false, false, false⟩
  have h2 := foldl_parseField_gotFeedID parsed ⟨NewBlueMixObject, false, false, false⟩
  have h3 := foldl_parseField_gotValue parsed ⟨NewBlueMixObject, false, false, false⟩
  rw [Bool.false_or] at h1 h2 h3
  rw [h1, h2, h3]
  exact ⟨any_type_iff parsed, any_feed_iff parsed, any_value_iff parsed⟩

/-! ## bluemix.go : decoding the member `d` -/

theorem dedupKeys_of_nodup {α : Type} (l : List (String × α)) (h : (l.map Prod.fst).Nodup) :
    dedupKeys l = l := by
  induction l with
  | nil => rfl
  | cons kv rest ih =>
    simp only [List.map_cons, List.nodup_cons] at h
    have hany : rest.any (fun p => p.1 == kv.1) = false := by
      rw [Bool.eq_false_iff]
      intro hc
      obtain ⟨p, hp, hk⟩ := List.any_eq_true.mp hc
      exact h.1 (List.mem_map.mpr ⟨p, hp, by simpa using hk⟩)
    simp only [dedupKeys, hany, ih h.2]
    rfl

theorem decodeMembers_keys (ms : List (String × Doc)) (es : List (String × Any))
    (h : decodeMembers ms = some es) : es.map Prod.fst = ms.map Prod.fst := by
  induction ms generalizing es with
  | nil =>
    simp only [decodeMembers, Option.some.injEq] at h
    subst h
    rfl
  | cons kx rest ih =>
    obtain ⟨k, x⟩ := kx
    simp only [decodeMembers] at h
    cases hv : decodeValue x with
    | none => simp [hv] at h
    | some v =>
      cases hr : decodeMembers rest with
      | none => simp [hv, hr] at h
      | some vs =>
        simp only [hv, hr, Option.some.injEq] at h
        subst h
        simp [ih vs hr]

theorem decodeMembers_mem (ms : List (String × Doc)) (es : List (String × Any))
    (h : decodeMembers ms = some es) (k : String) (x : Doc) (hm : (k, x) ∈ ms) :
    ∃ v, decodeValue x = some v ∧ (k, v) ∈ es := by
  induction ms generalizing es with
  | nil => simp at hm
  | cons kx rest ih =>
    obtain ⟨k', x'⟩ := kx
    simp only [decodeMembers] at h
    cases hv : decodeValue x' with
    | none => simp [hv] at h
    | some v =>
      cases hr : decodeMembers rest with
      | none => simp [hv, hr] at h
      | some vs =>
        simp only [hv, hr, Option.some.injEq] at h
        subst h
        rcases List.mem_cons.mp hm with e | e
        · cases e
          exact ⟨v, hv, List.mem_cons_self _ _⟩
        · obtain ⟨w, hw, hmem⟩ := ih vs hr e
          exact ⟨w, hw, List.mem_cons_of_mem _ hmem⟩

theorem decodeMembers_mem_inv (ms : List (String × Doc)) (es : List (String × Any))
    (h : decodeMembers ms = some es) (k : String) (v : Any) (hm : (k, v) ∈ es) :
    ∃ x, (k, x) ∈ ms ∧ decodeValue x = some v := by
  induction ms generalizing es with
  | nil =>
    simp only [decodeMembers, Option.some.injEq] at h
    subst h
    simp at hm
  | cons kx rest ih =>
    obtain ⟨k', x'⟩ := kx
    simp only [decodeMembers] at h
    cases hv : decodeValue x' with
    | none => simp [hv] at h
    | some w =>
      cases hr : decodeMembers rest with
      | none => simp [hv, hr] at h
      | some vs =>
        simp only [hv, hr, Option.some.injEq] at h
        subst h
        rcases List.mem_cons.mp hm with e | e
        · cases e
          exact ⟨x', List.mem_cons_self _ _, hv⟩
        · obtain ⟨x, hx, hd⟩ := ih vs hr e
          exact ⟨x, List.mem_cons_of_mem _ hx, hd⟩

theorem decodeMembers_of_all (ms : List (String × Doc))
    (h : ∀ kv ∈ ms, (decodeValue kv.2).isSome = true) : ∃ es, decodeMembers ms = some es := by
  induction ms with
  | nil => exact ⟨[], rfl⟩
  | cons kx rest ih =>
    obtain ⟨k, x⟩ := kx
    obtain ⟨vs, hr⟩ := ih (fun kv hkv => h kv (List.mem_cons_of_mem _ hkv))
    obtain ⟨v, hv⟩ := Option.isSome_iff_exists.mp (h (k, x) (List.mem_cons_self _ _))
    exact ⟨(k, v) :: vs, by simp [decodeMembers, hv, hr]⟩

theorem decodeValue_eq_string (x : Doc) (t : String) (h : decodeValue x = some (Any.string t)) :
    x = Doc.str t := by
  cases x with
  | null => simp [decodeValue] at h
  | bool b => simp [decodeValue] at h
  | num q =>
    simp only [decodeValue] at h
    cases hq : roundFloat64 q <;> simp [hq] at h
  | str s =>
    simp only [decodeValue, Option.some.injEq, Any.string.injEq] at h
    rw [h]
  | arr xs =>
    simp only [decodeValue] at h
    cases hq : decodeList xs <;> simp [hq] at h
  | obj ms =>
    simp only [decodeValue] at h
    cases hq : decodeMembers ms <;> simp [hq] at h

/-- The map `json.Unmarshal` builds for an object with distinct member names all of whose
members decode. -/
theorem unmarshalMap_of_nodup (members : List (String × Doc))
    (hndp : (members.map Prod.fst).Nodup)
    (hdec : ∀ kv ∈ members, (decodeValue kv.2).isSome = true) :
    ∃ parsed, unmarshalMap (Doc.obj members) = some parsed ∧
      decodeMembers members = some parsed ∧ (parsed.map Prod.fst).Nodup := by
  obtain ⟨es, hes⟩ := decodeMembers_of_all members hdec
  have hk : (es.map Prod.fst).Nodup := by
    rw [decodeMembers_keys members es hes]
    exact hndp
  refine ⟨es, ?_, hes, hk⟩
  simp only [unmarshalMap, hes, Option.map_some', dedupKeys_of_nodup es hk]

/-- The pointer map `BlueMixParse` starts from, for a message with distinct member names. -/
theorem unmarshalRawMap_keys (entries : List (String × Doc))
    (hnd : (entries.map Prod.fst).Nodup) :
    ∃ objmap, unmarshalRawMap (some (Doc.obj entries)) = some objmap ∧
      objmap.map Prod.fst = entries.map Prod.fst ∧
      (∀ members, ("d", Doc.obj members) ∈ entries →
        ("d", some (Doc.obj members)) ∈ objmap) := by
  have hk : ((entries.map fun kv =>
      ((kv.1, match kv.2 with
        | .null => none
        | v => some v) : String × Option Doc)).map Prod.fst).Nodup := by
    simpa [List.map_map, Function.comp_def] using hnd
  refine ⟨entries.map fun kv =>
      ((kv.1, match kv.2 with
        | .null => none
        | v => some v) : String × Option Doc), ?_, ?_, ?_⟩
  · simp only [unmarshalRawMap]
    rw [dedupKeys_of_nodup _ hk]
  · simp [List.map_map, Function.comp_def]
  · intro members h
    exact List.mem_map.mpr ⟨("d", Doc.obj members), h, rfl⟩

/-- A message without the member `d` has no field observed. -/
theorem BlueMixParse_without_d (entries : List (String × Doc))
    (hnd : (entries.map Prod.fst).Nodup) (hd : "d" ∉ entries.map Prod.fst) :
    BlueMixParse (some (Doc.obj entries)) =
      ParseResult.error "BlueMixParse: missing one or more fields in JSON object" := by
  obtain ⟨objmap, ho, hk, _⟩ := unmarshalRawMap_keys entries hnd
  unfold BlueMixParse
  rw [ho]
  simp only [parseKeys_of_nodup objmap objmap _ (hk ▸ hnd), hk, hd, if_false]
  simp

/-- A message whose member `d` is an object that decodes: the inner loop runs once over the
decoded map. -/
theorem BlueMixParse_with_d (entries members : List (String × Doc))
    (parsed : List (String × Any))
    (hnd : (entries.map Prod.fst).Nodup) (hd : ("d", Doc.obj members) ∈ entries)
    (hdec : unmarshalMap (Doc.obj members) = some parsed) :
    BlueMixParse (some (Doc.obj entries)) =
      if (parsed.foldl parseField ⟨NewBlueMixObject, false, false, false⟩).gotType = true ∧
          (parsed.foldl parseField ⟨NewBlueMixObject, false, false, false⟩).gotFeedID = true ∧
          (parsed.foldl parseField ⟨NewBlueMixObject, false, false, false⟩).gotValue = true
      then ParseResult.ok (parsed.foldl parseField ⟨NewBlueMixObject, false, false, false⟩).b
      else ParseResult.error "BlueMixParse: missing one or more fields in JSON object" := by
  obtain ⟨objmap, ho, hk, hmem⟩ := unmarshalRawMap_keys entries hnd
  have hkey : "d" ∈ entries.map Prod.fst := List.mem_map.mpr ⟨_, hd, rfl⟩
  have hlook : objmap.lookup "d" = some (some (Doc.obj members)) :=
    lookup_of_mem_nodup objmap "d" _ (hk ▸ hnd) (hmem members hd)
  unfold BlueMixParse
  rw [ho]
  simp only [parseKeys_of_nodup objmap objmap _ (hk ▸ hnd), hk, hkey, if_true, parseD, hlook,
    Option.join, Option.bind, id]
  simp only [hdec]

/-- A message whose member `d` is an object that does not decode ends in `log.Fatal`. -/
theorem BlueMixParse_undecodable (entries members : List (String × Doc))
    (hnd : (entries.map Prod.fst).Nodup) (hd : ("d", Doc.obj members) ∈ entries)
    (hdec : unmarshalMap (Doc.obj members) = none) :
    BlueMixParse (some (Doc.obj entries)) = ParseResult.fatal := by
  obtain ⟨objmap, ho, hk, hmem⟩ := unmarshalRawMap_keys entries hnd
  have hkey : "d" ∈ entries.map Prod.fst := List.mem_map.mpr ⟨_, hd, rfl⟩
  have hlook : objmap.lookup "d" = some (some (Doc.obj members)) :=
    lookup_of_mem_nodup objmap "d" _ (hk ▸ hnd) (hmem members hd)
  unfold BlueMixParse
  rw [ho]
  simp only [parseKeys_of_nodup objmap objmap _ (hk ▸ hnd), hk, hkey, if_true, parseD, hlook,
    Option.join, Option.bind, id]
  simp only [hdec]

/-- Every member of `d` decodes when `_type`, `feed_id` and `value` do and the further
members do. -/
theorem members_decode (members : List (String × Doc)) (t f : String) (v : Doc)
    (hndp : (members.map Prod.fst).Nodup) (ht : ("_type", Doc.str t) ∈ members)
    (hf : ("feed_id", Doc.str f) ∈ members) (hv : ("value", v) ∈ members)
    (hvd : (decodeValue v).isSome = true)
    (hrest : ∀ kv ∈ members, kv.1 ≠ "_type" → kv.1 ≠ "feed_id" → kv.1 ≠ "value" →
      (decodeValue kv.2).isSome = true) :
    ∀ kv ∈ members, (decodeValue kv.2).isSome = true := by
  intro kv hkv
  obtain ⟨k, x⟩ := kv
  have hx := lookup_of_mem_nodup members k x hndp hkv
  by_cases h1 : k = "_type"
  · subst h1
    rw [lookup_of_mem_nodup members "_type" _ hndp ht] at hx
    cases hx
    rfl
  · by_cases h2 : k = "feed_id"
    · subst h2
      rw [lookup_of_mem_nodup members "feed_id" _ hndp hf] at hx
      cases hx
      rfl
    · by_cases h3 : k = "value"
      · subst h3
        rw [lookup_of_mem_nodup members "value" _ hndp hv] at hx
        cases hx
        exact hvd
      · exact hrest (k, x) hkv h1 h2 h3

/-- The envelope with distinct member names, a string `_type`, a string `feed_id` and a
`value` that decodes to `w`, the further members of `d` decoding too. -/
theorem BlueMixParse_envelope (entries members : List (String × Doc)) (t f : String)
    (v : Doc) (w : Any)
    (hnd : (entries.map Prod.fst).Nodup) (hd : ("d", Doc.obj members) ∈ entries)
    (hndp : (members.map Prod.fst).Nodup) (ht : ("_type", Doc.str t) ∈ members)
    (hf : ("feed_id", Doc.str f) ∈ members) (hv : ("value", v) ∈ members)
    (hvd : decodeValue v = some w)
    (hrest : ∀ kv ∈ members, kv.1 ≠ "_type" → kv.1 ≠ "feed_id" → kv.1 ≠ "value" →
      (decodeValue kv.2).isSome = true) :
    BlueMixParse (some (Doc.obj entries)) =
      ParseResult.ok ⟨t, f, (NewBlueMixObject.SetValue w).1.T⟩ := by
  obtain ⟨parsed, hum, hdm, hkp⟩ := unmarshalMap_of_nodup members hndp
    (members_decode members t f v hndp ht hf hv (by rw [hvd]; rfl) hrest)
  have ht' : ("_type", Any.string t) ∈ parsed := by
    obtain ⟨x, hx, hm⟩ := decodeMembers_mem members parsed hdm "_type" _ ht
    simp only [decodeValue, Option.some.injEq] at hx
    exact hx ▸ hm
  have hf' : ("feed_id", Any.string f) ∈ parsed := by
    obtain ⟨x, hx, hm⟩ := decodeMembers_mem members parsed hdm "feed_id" _ hf
    simp only [decodeValue, Option.some.injEq] at hx
    exact hx ▸ hm
  have hv' : ("value", w) ∈ parsed := by
    obtain ⟨x, hx, hm⟩ := decodeMembers_mem members parsed hdm "value" _ hv
    rw [hvd, Option.some.injEq] at hx
    exact hx ▸ hm
  rw [BlueMixParse_with_d entries members parsed hnd hd hum]
  obtain ⟨f1, f2, f3⟩ := foldl_parseField_flags parsed
  rw [if_pos ⟨f1.mpr ⟨t, ht'⟩, f2.mpr ⟨f, hf'⟩, f3.mpr ⟨w, hv'⟩⟩]
  obtain ⟨st0, h0, hT⟩ := foldl_parseField_T parsed ⟨NewBlueMixObject, false, false, false⟩ w
    hkp hv'
  have hType := foldl_parseField_Type parsed ⟨NewBlueMixObject, false, false, false⟩ t hkp ht'
  have hFeed := foldl_parseField_FeedID parsed ⟨NewBlueMixObject, false, false, false⟩ f hkp hf'
  have hT' : (parsed.foldl parseField ⟨NewBlueMixObject, false, false, false⟩).b.T =
      (NewBlueMixObject.SetValue w).1.T := by
    rw [hT, SetValue_T st0.b w, h0]
    rfl
  congr 1
  cases hb : (parsed.foldl parseField ⟨NewBlueMixObject, false, false, false⟩).b with
  | mk a b c =>
    rw [hb] at hType hFeed hT'
    simp only at hType hFeed hT'
    rw [hType, hFeed, hT']

/-- Discarding the fraction of a rational: the quotient of numerator by denominator, rounded
towards zero, is the floor of a non-negative value and the ceiling of a negative one. -/
theorem tdiv_num_den (x : ℚ) :
    Int.tdiv x.num x.den = if 0 ≤ x then ⌊x⌋ else ⌈x⌉ := by
  by_cases h : 0 ≤ x
  · rw [if_pos h, Rat.floor_def]
    exact Int.tdiv_eq_ediv (Rat.num_nonneg.mpr h) (Int.ofNat_nonneg _)
  · rw [if_neg h]
    have hneg : 0 ≤ -x := by
      have : x < 0 := lt_of_not_le h
      linarith
    have h1 : ⌈x⌉ = -⌊-x⌋ := by rw [Int.floor_neg, neg_neg]
    rw [h1, Rat.floor_def, Rat.neg_num, Rat.neg_den]
    have h2 : Int.tdiv (-x.num) x.den = (-x.num) / (x.den : Int) :=
      Int.tdiv_eq_ediv (by simpa using Rat.num_nonneg.mpr hneg) (Int.ofNat_nonneg _)
    rw [← h2, Int.neg_tdiv, neg_neg]

/-- The conversion of a `float64` within the `int` range. -/
theorem float64ToInt_of_range (x : ℚ) (hlo : -2 ^ 63 ≤ x) (hhi : x < 2 ^ 63) :
    float64ToInt x = if 0 ≤ x then ⌊x⌋ else ⌈x⌉ := by
  have ht := tdiv_num_den x
  have hr : -2 ^ 63 ≤ (if 0 ≤ x then ⌊x⌋ else ⌈x⌉) ∧ (if 0 ≤ x then ⌊x⌋ else ⌈x⌉) < 2 ^ 63 := by
    split_ifs with h
    · constructor
      · have : (0 : Int) ≤ ⌊x⌋ := Int.floor_nonneg.mpr h
        omega
      · have : ((⌊x⌋ : Int) : ℚ) < ((2 ^ 63 : Int) : ℚ) :=
          lt_of_le_of_lt (Int.floor_le x) (by exact_mod_cast hhi)
        exact_mod_cast this
    · constructor
      · have : ((-2 ^ 63 : Int) : ℚ) ≤ ((⌈x⌉ : Int) : ℚ) :=
          le_trans (by exact_mod_cast hlo) (Int.le_ceil x)
        exact_mod_cast this
      · have hx : x ≤ 0 := le_of_lt (lt_of_not_le h)
        have : ⌈x⌉ ≤ 0 := Int.ceil_le.mpr (by exact_mod_cast hx)
        omega
  unfold float64ToInt
  simp only [ht]
  rw [if_pos hr]

/-! ## bluemix.go : member names that occur more than once -/

theorem dedupKeys_subset {α : Type} (l : List (String × α)) :
    ∀ p ∈ dedupKeys l, p ∈ l := by
  induction l with
  | nil =>
    intro p hp
    exact hp
  | cons kv rest ih =>
    intro p hp
    simp only [dedupKeys] at hp
    split_ifs at hp
    · exact List.mem_cons_of_mem _ (ih p hp)
    · rcases List.mem_cons.mp hp with h | h
      · rw [h]
        exact List.mem_cons_self _ _
      · exact List.mem_cons_of_mem _ (ih p h)

theorem dedupKeys_nodup {α : Type} (l : List (String × α)) :
    ((dedupKeys l).map Prod.fst).Nodup := by
  induction l with
  | nil => exact List.nodup_nil
  | cons kv rest ih =>
    simp only [dedupKeys]
    split_ifs with hany
    · exact ih
    · rw [List.map_cons, List.nodup_cons]
      refine ⟨fun hmem => hany ?_, ih⟩
      obtain ⟨p, hp, hk⟩ := List.mem_map.mp hmem
      exact List.any_eq_true.mpr ⟨p, dedupKeys_subset rest p hp, by simpa using hk⟩

theorem dedupKeys_idem {α : Type} (l : List (String × α)) :
    dedupKeys (dedupKeys l) = dedupKeys l :=
  dedupKeys_of_nodup _ (dedupKeys_nodup l)

theorem any_key_iff {α : Type} (l : List (String × α)) (k : String) :
    l.any (fun p => p.1 == k) = true ↔ k ∈ l.map Prod.fst := by
  rw [List.any_eq_true, List.mem_map]
  constructor
  · rintro ⟨p, hp, hk⟩
    exact ⟨p, hp, by simpa using hk⟩
  · rintro ⟨p, hp, hk⟩
    exact ⟨p, hp, by simpa using hk⟩

theorem any_key_of_keys {α β : Type} (l : List (String × α)) (m : List (String × β))
    (h : l.map Prod.fst = m.map Prod.fst) (k : String) :
    l.any (fun p => p.1 == k) = m.any (fun p => p.1 == k) := by
  rw [Bool.eq_iff_iff, any_key_iff, any_key_iff, h]

theorem dedupKeys_map {α β : Type} (G : String × α → String × β)
    (hG : ∀ kv, (G kv).1 = kv.1) (l : List (String × α)) :
    dedupKeys (l.map G) = (dedupKeys l).map G := by
  induction l with
  | nil => rfl
  | cons kv rest ih =>
    have hkeys : (rest.map G).map Prod.fst = rest.map Prod.fst := by
      rw [List.map_map]
      exact List.map_congr_left (fun p _ => hG p)
    have hk := any_key_of_keys (rest.map G) rest hkeys kv.1
    simp only [List.map_cons, dedupKeys, hG, hk]
    split_ifs
    · exact ih
    · rw [List.map_cons, ih]

/-- Only the last member of each name reaches the loops of `BlueMixParse`. -/
theorem BlueMixParse_dedup (entries : List (String × Doc)) :
    BlueMixParse (some (Doc.obj entries)) = BlueMixParse (some (Doc.obj (dedupKeys entries))) := by
  have h : unmarshalRawMap (some (Doc.obj entries)) =
      unmarshalRawMap (some (Doc.obj (dedupKeys entries))) := by
    have key : ∀ G : String × Doc → String × Option Doc, (∀ kv, (G kv).1 = kv.1) →
        some (dedupKeys (entries.map G)) = some (dedupKeys ((dedupKeys entries).map G)) := by
      intro G hG
      rw [dedupKeys_map G hG, dedupKeys_map G hG, dedupKeys_idem]
    simp only [unmarshalRawMap]
    refine key _ ?_
    intro kv
    rfl
  unfold BlueMixParse
  rw [h]

/-- Decoding the members and keeping the last of each name, in either order. -/
theorem decodeMembers_dedup (ms : List (String × Doc)) (es : List (String × Any))
    (h : decodeMembers ms = some es) : decodeMembers (dedupKeys ms) = some (dedupKeys es) := by
  induction ms generalizing es with
  | nil =>
    simp only [decodeMembers, Option.some.injEq] at h
    subst h
    rfl
  | cons kv rest ih =>
    obtain ⟨k, x⟩ := kv
    simp only [decodeMembers] at h
    cases hx : decodeValue x with
    | none => simp [hx] at h
    | some v =>
      cases hr : decodeMembers rest with
      | none => simp [hx, hr] at h
      | some vs =>
        simp only [hx, hr, Option.some.injEq] at h
        subst h
        have hk := any_key_of_keys rest vs (decodeMembers_keys rest vs hr).symm k
        simp only [dedupKeys, hk]
        split_ifs
        · exact ih vs hr
        · simp only [decodeMembers, hx, ih vs hr]

/-! ## bluemix.go : the envelope -/

theorem members_type_iff (members : List (String × Doc)) (parsed : List (String × Any))
    (h : decodeMembers members = some parsed) (key : String) :
    (∃ t, (key, Any.string t) ∈ parsed) ↔ ∃ t, (key, Doc.str t) ∈ members := by
  constructor
  · rintro ⟨t, ht⟩
    obtain ⟨x, hx, hd⟩ := decodeMembers_mem_inv members parsed h key _ ht
    exact ⟨t, decodeValue_eq_string x t hd ▸ hx⟩
  · rintro ⟨t, ht⟩
    obtain ⟨w, hw, hm⟩ := decodeMembers_mem members parsed h key _ ht
    simp only [decodeValue, Option.some.injEq] at hw
    exact ⟨t, hw ▸ hm⟩

theorem members_key_iff (members : List (String × Doc)) (parsed : List (String × Any))
    (h : decodeMembers members = some parsed) (key : String) :
    (∃ v, (key, v) ∈ parsed) ↔ ∃ x, (key, x) ∈ members := by
  constructor
  · rintro ⟨v, hv⟩
    obtain ⟨x, hx, _⟩ := decodeMembers_mem_inv members parsed h key _ hv
    exact ⟨x, hx⟩
  · rintro ⟨x, hx⟩
    obtain ⟨w, _, hm⟩ := decodeMembers_mem members parsed h key _ hx
    exact ⟨w, hm⟩

set_option maxRecDepth 8000 in
/-- C12, as the claim states it, fails. The message `{"d":5}` decodes as a JSON object and
has no acceptable `d`, yet `BlueMixParse` does not return the missing-fields error: decoding
`d` fails and `log.Fatal` ends the process. The message
`{"d":{"_type":"x","feed_id":"f1","value":1e400}}` has all three members, yet no object is
returned: `1e400` is out of the `float64` range, so decoding `d` fails as well. -/
theorem envelope_acceptance_counterexample :
    BlueMixParse (some (Doc.obj [("d", Doc.num 5)])) = ParseResult.fatal ∧
    BlueMixParse (some (Doc.obj [("d", Doc.num 5)])) ≠
      ParseResult.error "BlueMixParse: missing one or more fields in JSON object" ∧
    BlueMixParse (some (Doc.obj [("d", Doc.obj [("_type", Doc.str "x"),
      ("feed_id", Doc.str "f1"),
      ("value", Doc.num ((10000000000000000000000000000000000000000000000000000000000000000000000000000000000000000000000000000000000000000000000000000000000000000000000000000000000000000000000000000000000000000000000000000000000000000000000000000000000000000000000000000000000000000000000000000000000000000000000000000000000000000000000000000000000000000000000000000000000000000000000000000000000000000000000000000000000000000 : Int) : ℚ))])])) = ParseResult.fatal := by
  have h : BlueMixParse (some (Doc.obj [("d", Doc.num 5)])) = ParseResult.fatal := rfl
  refine ⟨h, ?_, rfl⟩
  rw [h]
  intro e
  cases e

/-- C12, amended. Take a message that decodes as a JSON object in which the member `d` is
absent or is itself a JSON object that `json.Unmarshal` decodes (every number in it within the
`float64` range); where a name occurs more than once, the last member of that name is the one
that counts, as it is the one the Go map keeps. `BlueMixParse` returns an object and no error
iff `d` is present and its object has `_type` with a string value, `feed_id` with a string
value and the key `value` (whatever its value, `null` included); in every other such case it
returns the missing-fields error and no object. -/
theorem envelope_acceptance (entries : List (String × Doc))
    (hobj : ∀ v, ("d", v) ∈ dedupKeys entries → ∃ members, v = Doc.obj members ∧
      ∀ kv ∈ members, (decodeValue kv.2).isSome = true) :
    ((∃ b, BlueMixParse (some (Doc.obj entries)) = ParseResult.ok b) ↔
      ∃ members, ("d", Doc.obj members) ∈ dedupKeys entries ∧
        (∃ t, ("_type", Doc.str t) ∈ dedupKeys members) ∧
        (∃ f, ("feed_id", Doc.str f) ∈ dedupKeys members) ∧
        (∃ v, ("value", v) ∈ dedupKeys members)) ∧
    ((∃ b, BlueMixParse (some (Doc.obj entries)) = ParseResult.ok b) ∨
      BlueMixParse (some (Doc.obj entries)) =
        ParseResult.error "BlueMixParse: missing one or more fields in JSON object") := by
  have hnd := dedupKeys_nodup entries
  rw [BlueMixParse_dedup entries]
  by_cases hd : "d" ∈ (dedupKeys entries).map Prod.fst
  · obtain ⟨⟨k, v⟩, hmem, hk⟩ := List.mem_map.mp hd
    simp only at hk
    subst hk
    obtain ⟨members, rfl, hdec⟩ := hobj v hmem
    obtain ⟨es, hes⟩ := decodeMembers_of_all members hdec
    have hum : unmarshalMap (Doc.obj members) = some (dedupKeys es) := by
      simp only [unmarshalMap, hes, Option.map_some']
    have hdm := decodeMembers_dedup members es hes
    have huniq : ∀ p, ("d", Doc.obj p) ∈ dedupKeys entries → p = members := by
      intro p hp
      have a := lookup_of_mem_nodup (dedupKeys entries) "d" _ hnd hp
      have b := lookup_of_mem_nodup (dedupKeys entries) "d" _ hnd hmem
      rw [a] at b
      injection b with b
      injection b
    obtain ⟨f1, f2, f3⟩ := foldl_parseField_flags (dedupKeys es)
    have g1 := f1.trans (members_type_iff (dedupKeys members) (dedupKeys es) hdm "_type")
    have g2 := f2.trans (members_type_iff (dedupKeys members) (dedupKeys es) hdm "feed_id")
    have g3 := f3.trans (members_key_iff (dedupKeys members) (dedupKeys es) hdm "value")
    rw [BlueMixParse_with_d (dedupKeys entries) members (dedupKeys es) hnd hmem hum]
    by_cases hall :
        ((dedupKeys es).foldl parseField ⟨NewBlueMixObject, false, false, false⟩).gotType
          = true ∧
        ((dedupKeys es).foldl parseField ⟨NewBlueMixObject, false, false, false⟩).gotFeedID
          = true ∧
        ((dedupKeys es).foldl parseField ⟨NewBlueMixObject, false, false, false⟩).gotValue
          = true
    · rw [if_pos hall]
      exact ⟨⟨fun _ => ⟨members, hmem, g1.mp hall.1, g2.mp hall.2.1, g3.mp hall.2.2⟩,
        fun _ => ⟨_, rfl⟩⟩, Or.inl ⟨_, rfl⟩⟩
    · rw [if_neg hall]
      refine ⟨⟨fun h => ?_, fun h => ?_⟩, Or.inr rfl⟩
      · obtain ⟨b, hb⟩ := h
        cases hb
      · obtain ⟨p, hp, h1, h2, h3⟩ := h
        rw [huniq p hp] at h1 h2 h3
        exact absurd ⟨g1.mpr h1, g2.mpr h2, g3.mpr h3⟩ hall
  · rw [BlueMixParse_without_d (dedupKeys entries) hnd hd]
    refine ⟨⟨fun h => ?_, fun h => ?_⟩, Or.inr rfl⟩
    · obtain ⟨b, hb⟩ := h
      cases hb
    · obtain ⟨p, hp, _⟩ := h
      exact absurd (List.mem_map.mpr ⟨_, hp, rfl⟩) hd

theorem envelope_acceptance_witness :
    (∃ b, BlueMixParse (some (Doc.obj [("d", Doc.obj [("_type", Doc.str "x"),
      ("feed_id", Doc.str "f1")])])) = ParseResult.ok b) ∨
    BlueMixParse (some (Doc.obj [("d", Doc.obj [("_type", Doc.str "x"),
      ("feed_id", Doc.str "f1")])])) =
        ParseResult.error "BlueMixParse: missing one or more fields in JSON object" :=
  (envelope_acceptance [("d", Doc.obj [("_type", Doc.str "x"), ("feed_id", Doc.str "f1")])]
    (by
      intro v hv
      have hk : dedupKeys [("d", Doc.obj [("_type", Doc.str "x"), ("feed_id", Doc.str "f1")])]
          = [("d", Doc.obj [("_type", Doc.str "x"), ("feed_id", Doc.str "f1")])] := rfl
      rw [hk] at hv
      simp only [List.mem_singleton, Prod.mk.injEq, true_and] at hv
      subst hv
      refine ⟨_, rfl, ?_⟩
      intro kv hkv
      simp only [List.mem_cons, List.mem_singleton, List.not_mem_nil, or_false] at hkv
      rcases hkv with rfl | rfl <;> rfl)).2

/-- C13. Envelope decoding of scalar values: in an envelope whose `d` has `_type` = `t` and
`feed_id` = `f` (strings), a string value `v` gives the object with `Type` = `t`,
`FeedID` = `f` and the string `v` stored, a boolean value `b` gives the boolean `b` stored,
and a null value leaves the stored value nil, in whatever order the members of `d` come.
Member names are distinct; the envelope may have further members, those of `d` being
decodable (none is needed: for the envelope of exactly three members the last hypothesis is
empty). -/
theorem envelope_scalar_values (entries members : List (String × Doc)) (t f : String)
    (hnd : (entries.map Prod.fst).Nodup) (hd : ("d", Doc.obj members) ∈ entries)
    (hndp : (members.map Prod.fst).Nodup) (ht : ("_type", Doc.str t) ∈ members)
    (hf : ("feed_id", Doc.str f) ∈ members)
    (hrest : ∀ kv ∈ members, kv.1 ≠ "_type" → kv.1 ≠ "feed_id" → kv.1 ≠ "value" →
      (decodeValue kv.2).isSome = true) :
    (∀ v : String, ("value", Doc.str v) ∈ members →
      BlueMixParse (some (Doc.obj entries)) = ParseResult.ok ⟨t, f, Any.string v⟩) ∧
    (∀ b : Bool, ("value", Doc.bool b) ∈ members →
      BlueMixParse (some (Doc.obj entries)) = ParseResult.ok ⟨t, f, Any.bool b⟩) ∧
    (("value", Doc.null) ∈ members →
      BlueMixParse (some (Doc.obj entries)) = ParseResult.ok ⟨t, f, Any.nil⟩) :=
  ⟨fun v hv => BlueMixParse_envelope entries members t f (Doc.str v) (Any.string v)
      hnd hd hndp ht hf hv rfl hrest,
   fun b hv => BlueMixParse_envelope entries members t f (Doc.bool b) (Any.bool b)
      hnd hd hndp ht hf hv rfl hrest,
   fun hv => BlueMixParse_envelope entries members t f Doc.null Any.nil
      hnd hd hndp ht hf hv rfl hrest⟩

theorem envelope_scalar_values_witness :
    BlueMixParse (some (Doc.obj [("d", Doc.obj [("value", Doc.str "hello"),
      ("feed_id", Doc.str "f1"), ("_type", Doc.str "text")])])) =
      ParseResult.ok ⟨"text", "f1", Any.string "hello"⟩ :=
  (envelope_scalar_values
    [("d", Doc.obj [("value", Doc.str "hello"), ("feed_id", Doc.str "f1"),
      ("_type", Doc.str "text")])]
    [("value", Doc.str "hello"), ("feed_id", Doc.str "f1"), ("_type", Doc.str "text")]
    "text" "f1" (by decide) (by simp) (by decide) (by simp) (by simp)
    (by
      intro kv hkv h1 h2 h3
      simp only [List.mem_cons, List.mem_singleton, List.not_mem_nil, or_false] at hkv
      rcases hkv with rfl | rfl | rfl
      · exact absurd rfl h3
      · exact absurd rfl h2
      · exact absurd rfl h1)).1 "hello" (by simp)

/-- C14. Integer coercion: for an integer `n` with `|n| ≤ 2^53`, an envelope whose `value` is
the number `n` gives an object that stores the integer `n`, not a floating-point value, and
`GetValueInt` returns `n` without error on it: the number is read as the double `n`, without
rounding, and converted to the `int` `n`. Member names are distinct and the further members
of `d`, if any, decode. -/
theorem integer_coercion (entries members : List (String × Doc)) (t f : String) (n : Int)
    (hnd : (entries.map Prod.fst).Nodup) (hd : ("d", Doc.obj members) ∈ entries)
    (hndp : (members.map Prod.fst).Nodup) (ht : ("_type", Doc.str t) ∈ members)
    (hf : ("feed_id", Doc.str f) ∈ members)
    (hv : ("value", Doc.num (n : ℚ)) ∈ members) (hn : |n| ≤ 2 ^ 53)
    (hrest : ∀ kv ∈ members, kv.1 ≠ "_type" → kv.1 ≠ "feed_id" → kv.1 ≠ "value" →
      (decodeValue kv.2).isSome = true) :
    BlueMixParse (some (Doc.obj entries)) = ParseResult.ok ⟨t, f, Any.int n⟩ ∧
    (⟨t, f, Any.int n⟩ : BlueMixObject).GetValueInt = (n, none) := by
  refine ⟨?_, rfl⟩
  have hvd : decodeValue (Doc.num (n : ℚ)) = some (Any.float64 (n : ℚ)) := by
    simp only [decodeValue, roundFloat64_intCast n hn, Option.map_some']
  rw [BlueMixParse_envelope entries members t f _ _ hnd hd hndp ht hf hv hvd hrest]
  have habs := abs_le.mp hn
  have hconv : float64ToInt (n : ℚ) = n := by
    simp only [float64ToInt, Rat.intCast_num, Rat.intCast_den, Nat.cast_one, Int.tdiv_one]
    rw [if_pos ⟨by omega, by omega⟩]
  simp only [BlueMixObject.SetValue, NewBlueMixObject, hconv]

theorem integer_coercion_witness :
    BlueMixParse (some (Doc.obj [("d", Doc.obj [("_type", Doc.str "x"),
      ("feed_id", Doc.str "f1"), ("value", Doc.num ((3 : Int) : ℚ))])])) =
      ParseResult.ok ⟨"x", "f1", Any.int 3⟩ :=
  (integer_coercion
    [("d", Doc.obj [("_type", Doc.str "x"), ("feed_id", Doc.str "f1"),
      ("value", Doc.num ((3 : Int) : ℚ))])]
    [("_type", Doc.str "x"), ("feed_id", Doc.str "f1"),
      ("value", Doc.num ((3 : Int) : ℚ))]
    "x" "f1" 3 (by decide) (by simp) (by decide) (by simp) (by simp) (by simp)
    (by decide)
    (by
      intro kv hkv h1 h2 h3
      simp only [List.mem_cons, List.mem_singleton, List.not_mem_nil, or_false] at hkv
      rcases hkv with rfl | rfl | rfl
      · exact absurd rfl h1
      · exact absurd rfl h2
      · exact absurd rfl h3)).1

/-- C15 fails on the code: a message that is not JSON, a message that is JSON but not an
object, and a message whose `d` is not an object all end in `log.Fatal`, which ends the
process; a `d` that is `null` ends in a nil-pointer panic. None of them returns an error to
the caller. -/
theorem malformed_message_fatal :
    BlueMixParse none = ParseResult.fatal ∧
    BlueMixParse (some (Doc.arr [])) = ParseResult.fatal ∧
    BlueMixParse (some (Doc.str "hello")) = ParseResult.fatal ∧
    BlueMixParse (some (Doc.obj [("d", Doc.arr [])])) = ParseResult.fatal ∧
    BlueMixParse (some (Doc.obj [("d", Doc.null)])) = ParseResult.panic :=
  ⟨rfl, rfl, rfl, rfl, rfl⟩

/-! ## bluemix.go : values `SetValue` has no case for, and numbers -/

theorem SetValue_of_composite (o : BlueMixObject) (v : Any) (h : v.isComposite = true) :
    o.SetValue v = (o, false) := by
  cases v <;> simp [Any.isComposite] at h <;> rfl
theorem SetValue_not_composite (o : BlueMixObject) (v : Any) (h : o.T.isComposite = false) :
    (o.SetValue v).1.T.isComposite = false := by
  cases v <;> first | exact h | rfl
theorem parseField_not_composite (st : ParseState) (kv : String × Any)
    (h : st.b.T.isComposite = false) : (parseField st kv).b.T.isComposite = false := by
  unfold parseField
  split_ifs
  · exact h
  · exact h
  · exact SetValue_not_composite st.b kv.2 h
  · exact h
theorem foldl_parseField_not_composite (parsed : List (String × Any)) (st : ParseState)
    (h : st.b.T.isComposite = false) :
    (parsed.foldl parseField st).b.T.isComposite = false := by
  induction parsed generalizing st with
  | nil => exact h
  | cons kv rest ih => exact ih _ (parseField_not_composite st kv h)
theorem parseD_not_composite (objmap : List (String × Option Doc)) (st st1 : ParseState)
    (h : st.b.T.isComposite = false) (hd : parseD objmap st = Except.ok st1) :
    st1.b.T.isComposite = false := by
  unfold parseD at hd
  split at hd
  · cases hd
  · split at hd
    · cases hd
    · cases hd
      exact foldl_parseField_not_composite _ st h
theorem parseKeys_not_composite (objmap keys : List (String × Option Doc)) (st st1 : ParseState)
    (h : st.b.T.isComposite = false) (hk : parseKeys objmap keys st = Except.ok st1) :
    st1.b.T.isComposite = false := by
  induction keys generalizing st with
  | nil =>
    simp only [parseKeys] at hk
    cases hk
    exact h
  | cons kv rest ih =>
    simp only [parseKeys] at hk
    split_ifs at hk
    · cases hd : parseD objmap st with
      | error r =>
        rw [hd] at hk
        cases hk
      | ok st2 =>
        rw [hd] at hk
        exact ih st2 (parseD_not_composite objmap st st2 h hd) hk
    · exact ih st h hk
/-- Whatever the message, an object returned by `BlueMixParse` stores no array and no
object. -/
theorem BlueMixParse_not_composite (msg : Option Doc) (b : BlueMixObject)
    (h : BlueMixParse msg = ParseResult.ok b) : b.T.isComposite = false := by
  unfold BlueMixParse at h
  split at h
  · cases h
  · rename_i objmap _
    cases hk : parseKeys objmap objmap ⟨NewBlueMixObject, false, false, false⟩ with
    | error r =>
      rw [hk] at h
      cases r <;> cases h
    | ok st =>
      rw [hk] at h
      simp only at h
      split_ifs at h
      cases h
      exact parseKeys_not_composite objmap objmap ⟨NewBlueMixObject, false, false, false⟩ st
        rfl hk

theorem decodeValue_composite (v : Doc) (w : Any)
    (hshape : (∃ xs, v = Doc.arr xs) ∨ (∃ ms, v = Doc.obj ms))
    (h : decodeValue v = some w) : w.isComposite = true := by
  rcases hshape with ⟨xs, rfl⟩ | ⟨ms, rfl⟩
  · simp only [decodeValue, Option.map_eq_some'] at h
    obtain ⟨a, _, rfl⟩ := h
    rfl
  · simp only [decodeValue, Option.map_eq_some'] at h
    obtain ⟨a, _, rfl⟩ := h
    rfl

theorem BlueMixParse_envelope_composite (entries members : List (String × Doc))
    (t f : String) (v : Doc)
    (hnd : (entries.map Prod.fst).Nodup) (hd : ("d", Doc.obj members) ∈ entries)
    (hndp : (members.map Prod.fst).Nodup) (ht : ("_type", Doc.str t) ∈ members)
    (hf : ("feed_id", Doc.str f) ∈ members) (hv : ("value", v) ∈ members)
    (hshape : (∃ xs, v = Doc.arr xs) ∨ (∃ ms, v = Doc.obj ms))
    (hall : ∀ kv ∈ members, (decodeValue kv.2).isSome = true) :
    BlueMixParse (some (Doc.obj entries)) = ParseResult.ok ⟨t, f, Any.nil⟩ := by
  obtain ⟨w, hw⟩ := Option.isSome_iff_exists.mp (hall _ hv)
  rw [BlueMixParse_envelope entries members t f v w hnd hd hndp ht hf hv hw
    (fun kv hkv _ _ _ => hall kv hkv),
    SetValue_of_composite NewBlueMixObject w (decodeValue_composite v w hshape hw)]
  rfl

/-- C16. Unsupported value shapes stay unset: `SetValue` given an array or an object returns
nil and leaves the receiver as it was; an object returned by `BlueMixParse` never stores an
array or an object; for an envelope whose `value` is an array or an object, an object that
`BlueMixParse` returns has its value unset (nil), it is returned whenever the members of `d`
decode, and all three typed getters return an error on it. -/
theorem unsupported_value_unset :
    (∀ (o : BlueMixObject) xs, o.SetValue (Any.slice xs) = (o, false)) ∧
    (∀ (o : BlueMixObject) es, o.SetValue (Any.map es) = (o, false)) ∧
    (∀ msg b, BlueMixParse msg = ParseResult.ok b →
      (∀ xs, b.T ≠ Any.slice xs) ∧ (∀ es, b.T ≠ Any.map es)) ∧
    (∀ (entries members : List (String × Doc)) (t f : String) (v : Doc),
      (entries.map Prod.fst).Nodup → ("d", Doc.obj members) ∈ entries →
      (members.map Prod.fst).Nodup → ("_type", Doc.str t) ∈ members →
      ("feed_id", Doc.str f) ∈ members → ("value", v) ∈ members →
      ((∃ xs, v = Doc.arr xs) ∨ (∃ ms, v = Doc.obj ms)) →
      (∀ b, BlueMixParse (some (Doc.obj entries)) = ParseResult.ok b → b = ⟨t, f, Any.nil⟩) ∧
      ((∀ kv ∈ members, (decodeValue kv.2).isSome = true) →
        BlueMixParse (some (Doc.obj entries)) = ParseResult.ok ⟨t, f, Any.nil⟩) ∧
      (⟨t, f, Any.nil⟩ : BlueMixObject).GetValueInt =
        (0, some "GetValueInt: value is not of type 'int'") ∧
      (⟨t, f, Any.nil⟩ : BlueMixObject).GetValueBool =
        (false, some "GetValueBool: value is not of type 'bool'") ∧
      (⟨t, f, Any.nil⟩ : BlueMixObject).GetValueString =
        ("", some "GetValueString: value is not of type 'string'")) := by
  refine ⟨fun o xs => rfl, fun o es => rfl, fun msg b h => ?_, ?_⟩
  · have hc := BlueMixParse_not_composite msg b h
    constructor
    · intro xs e
      rw [e] at hc
      simp [Any.isComposite] at hc
    · intro es e
      rw [e] at hc
      simp [Any.isComposite] at hc
  · intro entries members t f v hnd hd hndp ht hf hv hshape
    refine ⟨?_, BlueMixParse_envelope_composite entries members t f v hnd hd hndp ht hf hv
      hshape, rfl, rfl, rfl⟩
    intro b hb
    cases hdm : decodeMembers members with
    | none =>
      have hum : unmarshalMap (Doc.obj members) = none := by
        simp only [unmarshalMap, hdm, Option.map_none']
      rw [BlueMixParse_undecodable entries members hnd hd hum] at hb
      cases hb
    | some es =>
      have hall : ∀ kv ∈ members, (decodeValue kv.2).isSome = true := by
        intro kv hkv
        obtain ⟨w, hw, _⟩ := decodeMembers_mem members es hdm kv.1 kv.2 hkv
        rw [hw]
        rfl
      rw [BlueMixParse_envelope_composite entries members t f v hnd hd hndp ht hf hv hshape
        hall] at hb
      cases hb
      rfl

theorem unsupported_value_unset_witness :
    BlueMixParse (some (Doc.obj [("d", Doc.obj [("_type", Doc.str "x"),
      ("feed_id", Doc.str "f1"), ("value", Doc.arr [Doc.num 1, Doc.num 2])])])) =
      ParseResult.ok ⟨"x", "f1", Any.nil⟩ :=
  (unsupported_value_unset.2.2.2
    [("d", Doc.obj [("_type", Doc.str "x"), ("feed_id", Doc.str "f1"),
      ("value", Doc.arr [Doc.num 1, Doc.num 2])])]
    [("_type", Doc.str "x"), ("feed_id", Doc.str "f1"),
      ("value", Doc.arr [Doc.num 1, Doc.num 2])]
    "x" "f1" (Doc.arr [Doc.num 1, Doc.num 2])
    (by decide) (by simp) (by decide) (by simp) (by simp) (by simp)
    (Or.inl ⟨_, rfl⟩)).2.1
    (by
      intro kv hkv
      simp only [List.mem_cons, List.mem_singleton, List.not_mem_nil, or_false] at hkv
      rcases hkv with rfl | rfl | rfl <;> rfl)

/-- The envelope `tpre ++ d:(pre ++ value:v ++ post) ++ tpost` with distinct keys. -/
theorem BlueMixParse_envelope_at (tpre tpost pre post : List (String × Doc)) (t f : String)
    (v : Doc) (w : Any)
    (hnd : (tpre.map Prod.fst ++ "d" :: tpost.map Prod.fst).Nodup)
    (hndp : (pre.map Prod.fst ++ "value" :: post.map Prod.fst).Nodup)
    (ht : ("_type", Doc.str t) ∈ pre ++ post)
    (hf : ("feed_id", Doc.str f) ∈ pre ++ post)
    (hvd : decodeValue v = some w)
    (hrest : ∀ kv ∈ pre ++ post, kv.1 ≠ "_type" → kv.1 ≠ "feed_id" →
      (decodeValue kv.2).isSome = true) :
    BlueMixParse (some (Doc.obj
      (tpre ++ ("d", Doc.obj (pre ++ ("value", v) :: post)) :: tpost))) =
      ParseResult.ok ⟨t, f, (NewBlueMixObject.SetValue w).1.T⟩ := by
  apply BlueMixParse_envelope _ (pre ++ ("value", v) :: post) t f v w
  · simpa using hnd
  · simp
  · simpa using hndp
  · rcases List.mem_append.mp ht with h | h
    · exact List.mem_append.mpr (Or.inl h)
    · exact List.mem_append.mpr (Or.inr (List.mem_cons_of_mem _ h))
  · rcases List.mem_append.mp hf with h | h
    · exact List.mem_append.mpr (Or.inl h)
    · exact List.mem_append.mpr (Or.inr (List.mem_cons_of_mem _ h))
  · simp
  · exact hvd
  · intro kv hkv h1 h2 h3
    apply hrest kv _ h1 h2
    rcases List.mem_append.mp hkv with h | h
    · exact List.mem_append.mpr (Or.inl h)
    · rcases List.mem_cons.mp h with h | h
      · rw [h] at h3
        exact absurd rfl h3
      · exact List.mem_append.mpr (Or.inr h)

set_option maxRecDepth 8000 in
/-- C19, as the claim states it, fails. In the envelope
`{"d":{"_type":"x","feed_id":"f1","value":[1e400]}}` the members `_type` and `feed_id` are
strings and `value` is a JSON array, yet `BlueMixParse` does not return success: `1e400` is
out of the `float64` range, decoding `d` fails and `log.Fatal` ends the process. The same
envelope with `"value":null` is parsed to an object. -/
theorem value_shape_ignored_counterexample :
    BlueMixParse (some (Doc.obj [("d", Doc.obj [("_type", Doc.str "x"),
      ("feed_id", Doc.str "f1"),
      ("value", Doc.arr [Doc.num ((10000000000000000000000000000000000000000000000000000000000000000000000000000000000000000000000000000000000000000000000000000000000000000000000000000000000000000000000000000000000000000000000000000000000000000000000000000000000000000000000000000000000000000000000000000000000000000000000000000000000000000000000000000000000000000000000000000000000000000000000000000000000000000000000000000000000000000 : Int) : ℚ)])])])) = ParseResult.fatal ∧
    BlueMixParse (some (Doc.obj [("d", Doc.obj [("_type", Doc.str "x"),
      ("feed_id", Doc.str "f1"), ("value", Doc.null)])])) =
      ParseResult.ok ⟨"x", "f1", Any.nil⟩ :=
  ⟨rfl, rfl⟩

/-- C19, amended. For an envelope with string `_type` and `feed_id` whose `value` is an array
or an object that `json.Unmarshal` decodes (every number in it within the `float64` range),
the further members of `d` decoding as well, `BlueMixParse` returns success, with the stored
value nil, and the object it returns is the one returned for the same envelope with `value`
replaced by `null`. -/
theorem value_shape_ignored (tpre tpost pre post : List (String × Doc)) (t f : String)
    (v : Doc)
    (hnd : (tpre.map Prod.fst ++ "d" :: tpost.map Prod.fst).Nodup)
    (hndp : (pre.map Prod.fst ++ "value" :: post.map Prod.fst).Nodup)
    (ht : ("_type", Doc.str t) ∈ pre ++ post)
    (hf : ("feed_id", Doc.str f) ∈ pre ++ post)
    (hshape : (∃ xs, v = Doc.arr xs) ∨ (∃ ms, v = Doc.obj ms))
    (hvd : (decodeValue v).isSome = true)
    (hrest : ∀ kv ∈ pre ++ post, kv.1 ≠ "_type" → kv.1 ≠ "feed_id" →
      (decodeValue kv.2).isSome = true) :
    BlueMixParse (some (Doc.obj
      (tpre ++ ("d", Doc.obj (pre ++ ("value", v) :: post)) :: tpost))) =
      ParseResult.ok ⟨t, f, Any.nil⟩ ∧
    BlueMixParse (some (Doc.obj
      (tpre ++ ("d", Doc.obj (pre ++ ("value", v) :: post)) :: tpost))) =
    BlueMixParse (some (Doc.obj
      (tpre ++ ("d", Doc.obj (pre ++ ("value", Doc.null) :: post)) :: tpost))) := by
  obtain ⟨w, hw⟩ := Option.isSome_iff_exists.mp hvd
  have h1 := BlueMixParse_envelope_at tpre tpost pre post t f v w hnd hndp ht hf hw hrest
  have h2 := BlueMixParse_envelope_at tpre tpost pre post t f Doc.null Any.nil hnd hndp ht hf
    rfl hrest
  rw [SetValue_of_composite NewBlueMixObject w (decodeValue_composite v w hshape hw)] at h1
  exact ⟨h1, h1.trans h2.symm⟩

theorem value_shape_ignored_witness :
    BlueMixParse (some (Doc.obj
      ([] ++ ("d", Doc.obj ([("_type", Doc.str "x")] ++
        ("value", Doc.obj [("a", Doc.bool true)]) :: [("feed_id", Doc.str "f1")])) :: []))) =
      ParseResult.ok ⟨"x", "f1", Any.nil⟩ :=
  (value_shape_ignored [] [] [("_type", Doc.str "x")] [("feed_id", Doc.str "f1")]
    "x" "f1" (Doc.obj [("a", Doc.bool true)]) (by decide) (by decide) (by simp) (by simp)
    (Or.inr ⟨_, rfl⟩) rfl
    (by
      intro kv hkv h1 h2
      simp only [List.cons_append, List.nil_append, List.mem_cons, List.mem_singleton,
        List.not_mem_nil, or_false] at hkv
      rcases hkv with rfl | rfl
      · exact absurd rfl h1
      · exact absurd rfl h2)).1

/-- C20, as the claim states it, fails. The JSON numbers `0.99999999999999999999` and `0.5`
are in the 64-bit integer range and both have integer part 0, so they differ only in their
fractional part; yet the first is stored as 1 and the second as 0, because the number is
rounded to the nearest double, here 1, before its fractional part is discarded. And the
integer `9223372036854775807`, in the 64-bit range, is stored as `-9223372036854775808`: it
is read as the double `2^63`, which is out of the range of the conversion. -/
theorem fraction_truncated_counterexample :
    truncate (mkRat 99999999999999999999 100000000000000000000) = 0 ∧
    truncate (mkRat 1 2) = 0 ∧
    BlueMixParse (some (Doc.obj [("d", Doc.obj [("_type", Doc.str "x"),
      ("feed_id", Doc.str "f1"),
      ("value", Doc.num (mkRat 99999999999999999999 100000000000000000000))])])) =
      ParseResult.ok ⟨"x", "f1", Any.int 1⟩ ∧
    BlueMixParse (some (Doc.obj [("d", Doc.obj [("_type", Doc.str "x"),
      ("feed_id", Doc.str "f1"), ("value", Doc.num (mkRat 1 2))])])) =
      ParseResult.ok ⟨"x", "f1", Any.int 0⟩ ∧
    BlueMixParse (some (Doc.obj [("d", Doc.obj [("_type", Doc.str "x"),
      ("feed_id", Doc.str "f1"),
      ("value", Doc.num ((9223372036854775807 : Int) : ℚ))])])) =
      ParseResult.ok ⟨"x", "f1", Any.int (-9223372036854775808)⟩ :=
  ⟨by rw [Rat.mkRat_eq_div]; norm_num [truncate, Int.floor_eq_iff],
   by rw [Rat.mkRat_eq_div]; norm_num [truncate, Int.floor_eq_iff], rfl, rfl, rfl⟩

/-- C20, amended. A JSON number `x` is first read as the nearest double `x'`; when `x'` is in
the 64-bit integer range, `SetValue` stores the integer obtained by discarding the fractional
part of `x'` (3.7 is stored as 3, -3.7 as -3), so that two envelopes that differ only in
their numeric value, the two numbers being read as doubles with the same integer part, are
parsed to the same object. -/
theorem fraction_truncated :
    (∀ (o : BlueMixObject) (x x' : ℚ), roundFloat64 x = some x' → -2 ^ 63 ≤ x' → x' < 2 ^ 63 →
      o.SetValue (Any.float64 x') = ({ o with T := Any.int (truncate x') }, true)) ∧
    (∀ (tpre tpost pre post : List (String × Doc)) (t f : String) (x y x' y' : ℚ),
      (tpre.map Prod.fst ++ "d" :: tpost.map Prod.fst).Nodup →
      (pre.map Prod.fst ++ "value" :: post.map Prod.fst).Nodup →
      ("_type", Doc.str t) ∈ pre ++ post → ("feed_id", Doc.str f) ∈ pre ++ post →
      (∀ kv ∈ pre ++ post, kv.1 ≠ "_type" → kv.1 ≠ "feed_id" →
        (decodeValue kv.2).isSome = true) →
      roundFloat64 x = some x' → roundFloat64 y = some y' →
      -2 ^ 63 ≤ x' → x' < 2 ^ 63 → -2 ^ 63 ≤ y' → y' < 2 ^ 63 → truncate x' = truncate y' →
      BlueMixParse (some (Doc.obj
        (tpre ++ ("d", Doc.obj (pre ++ ("value", Doc.num x) :: post)) :: tpost))) =
        ParseResult.ok ⟨t, f, Any.int (truncate x')⟩ ∧
      BlueMixParse (some (Doc.obj
        (tpre ++ ("d", Doc.obj (pre ++ ("value", Doc.num x) :: post)) :: tpost))) =
      BlueMixParse (some (Doc.obj
        (tpre ++ ("d", Doc.obj (pre ++ ("value", Doc.num y) :: post)) :: tpost)))) := by
  have hset : ∀ (o : BlueMixObject) (x' : ℚ), -2 ^ 63 ≤ x' → x' < 2 ^ 63 →
      o.SetValue (Any.float64 x') = ({ o with T := Any.int (truncate x') }, true) := by
    intro o x hlo hhi
    simp only [BlueMixObject.SetValue, float64ToInt_of_range x hlo hhi, truncate]
  refine ⟨fun o _ x' _ hlo hhi => hset o x' hlo hhi, ?_⟩
  intro tpre tpost pre post t f x y x' y' hnd hndp ht hf hrest hx hy hxl hxh hyl hyh hxy
  have dx : decodeValue (Doc.num x) = some (Any.float64 x') := by
    simp only [decodeValue, hx, Option.map_some']
  have dy : decodeValue (Doc.num y) = some (Any.float64 y') := by
    simp only [decodeValue, hy, Option.map_some']
  have h1 := BlueMixParse_envelope_at tpre tpost pre post t f _ _ hnd hndp ht hf dx hrest
  have h2 := BlueMixParse_envelope_at tpre tpost pre post t f _ _ hnd hndp ht hf dy hrest
  rw [hset NewBlueMixObject x' hxl hxh] at h1
  rw [hset NewBlueMixObject y' hyl hyh, ← hxy] at h2
  exact ⟨h1, h1.trans h2.symm⟩

theorem fraction_truncated_witness :
    (BlueMixParse (some (Doc.obj
      ([] ++ ("d", Doc.obj ([("_type", Doc.str "x"), ("feed_id", Doc.str "f1")] ++
        ("value", Doc.num (mkRat 37 10)) :: [])) :: []))) =
      ParseResult.ok ⟨"x", "f1",
        Any.int (truncate (mkRat 4165829655317709 1125899906842624))⟩ ∧
    BlueMixParse (some (Doc.obj
      ([] ++ ("d", Doc.obj ([("_type", Doc.str "x"), ("feed_id", Doc.str "f1")] ++
        ("value", Doc.num (mkRat 37 10)) :: [])) :: []))) =
    BlueMixParse (some (Doc.obj
      ([] ++ ("d", Doc.obj ([("_type", Doc.str "x"), ("feed_id", Doc.str "f1")] ++
        ("value", Doc.num (mkRat 7 2)) :: [])) :: [])))) ∧
    truncate (mkRat 4165829655317709 1125899906842624) = 3 ∧
    NewBlueMixObject.SetValue (Any.float64 (mkRat (-4165829655317709) 1125899906842624)) =
      ({ NewBlueMixObject with
          T := Any.int (truncate (mkRat (-4165829655317709) 1125899906842624)) }, true) ∧
    truncate (mkRat (-4165829655317709) 1125899906842624) = -3 :=
  ⟨fraction_truncated.2 [] [] [("_type", Doc.str "x"), ("feed_id", Doc.str "f1")] []
      "x" "f1" (mkRat 37 10) (mkRat 7 2) (mkRat 4165829655317709 1125899906842624) (mkRat 7 2)
      (by decide) (by decide) (by simp) (by simp)
      (by
        intro kv hkv h1 h2
        simp only [List.append_nil, List.mem_cons, List.mem_singleton, List.not_mem_nil,
          or_false] at hkv
        rcases hkv with rfl | rfl
        · exact absurd rfl h1
        · exact absurd rfl h2)
      rfl rfl
      (by rw [Rat.mkRat_eq_div]; norm_num) (by rw [Rat.mkRat_eq_div]; norm_num)
      (by rw [Rat.mkRat_eq_div]; norm_num) (by rw [Rat.mkRat_eq_div]; norm_num)
      (by
        rw [Rat.mkRat_eq_div, Rat.mkRat_eq_div]
        norm_num [truncate, Int.floor_eq_iff]),
   by rw [Rat.mkRat_eq_div]; norm_num [truncate, Int.floor_eq_iff],
   fraction_truncated.1 NewBlueMixObject (mkRat (-37) 10)
      (mkRat (-4165829655317709) 1125899906842624) rfl
      (by rw [Rat.mkRat_eq_div]; norm_num) (by rw [Rat.mkRat_eq_div]; norm_num),
   by rw [Rat.mkRat_eq_div]; norm_num [truncate, Int.ceil_eq_iff]⟩

/-! ## bluemix.go : the typed getters -/

/-- C21. Typed getters are mutually exclusive: `GetValueInt` (resp. `GetValueBool`,
`GetValueString`) returns the stored value without error iff the stored value is an integer
(resp. a boolean, a string), and otherwise returns the zero value (`0`, `false`, `""`) with
an error; hence no two of the three getters succeed on the same object, and none succeeds
when the stored value is nil. -/
theorem typed_getters_exclusive (o : BlueMixObject) :
    (o.GetValueInt.2 = none ↔ ∃ n, o.T = Any.int n) ∧
    (∀ n, o.T = Any.int n → o.GetValueInt = (n, none)) ∧
    ((¬ ∃ n, o.T = Any.int n) →
      o.GetValueInt = (0, some "GetValueInt: value is not of type 'int'")) ∧
    (o.GetValueBool.2 = none ↔ ∃ b, o.T = Any.bool b) ∧
    (∀ b, o.T = Any.bool b → o.GetValueBool = (b, none)) ∧
    ((¬ ∃ b, o.T = Any.bool b) →
      o.GetValueBool = (false, some "GetValueBool: value is not of type 'bool'")) ∧
    (o.GetValueString.2 = none ↔ ∃ s, o.T = Any.string s) ∧
    (∀ s, o.T = Any.string s → o.GetValueString = (s, none)) ∧
    ((¬ ∃ s, o.T = Any.string s) →
      o.GetValueString = ("", some "GetValueString: value is not of type 'string'")) ∧
    ¬ (o.GetValueInt.2 = none ∧ o.GetValueBool.2 = none) ∧
    ¬ (o.GetValueInt.2 = none ∧ o.GetValueString.2 = none) ∧
    ¬ (o.GetValueBool.2 = none ∧ o.GetValueString.2 = none) ∧
    (o.T = Any.nil →
      o.GetValueInt.2 ≠ none ∧ o.GetValueBool.2 ≠ none ∧ o.GetValueString.2 ≠ none) := by
  obtain ⟨ty, fd, T⟩ := o
  cases T <;>
    simp [BlueMixObject.GetValueInt, BlueMixObject.GetValueBool, BlueMixObject.GetValueString]

theorem typed_getters_exclusive_witness :
    (⟨"x", "f1", Any.int 3⟩ : BlueMixObject).GetValueInt = (3, none) ∧
    (⟨"x", "f1", Any.int 3⟩ : BlueMixObject).GetValueBool =
      (false, some "GetValueBool: value is not of type 'bool'") :=
  ⟨(typed_getters_exclusive ⟨"x", "f1", Any.int 3⟩).2.1 3 rfl,
   (typed_getters_exclusive ⟨"x", "f1", Any.int 3⟩).2.2.2.2.2.1 (by simp)⟩

/-! ## fabric.go : subscription filters -/

/-- C22. Subscription filters built from concrete fields equal the publish topics:
`DeviceOfframpSubscription(n, f.ActorID, f.ActorPlatformID, t, p, s, fd)` is
`CtrlOfframpTopic(n, t, p, s, fd)` and `CtrlOnrampSubscription(f.NodeName, f.PlatformID, s,
fd)` is `DeviceOnrampTopic(s, fd)`; an identity made by `FabricInitialize(root, node,
platform, role)` has the actor fields `node` and `platform`, so its `CtrlOfframpTopic(n, t,
p, s, fd)` is `root/n/$feeds/$offramp/node/platform/t/p/s/fd`. -/
theorem subscription_eq_topic (f : Fabric) (n t p s fd root node platform : String)
    (role : ClassType) :
    f.DeviceOfframpSubscription n f.ActorID f.ActorPlatformID t p s fd =
      f.CtrlOfframpTopic n t p s fd ∧
    f.CtrlOnrampSubscription f.NodeName f.PlatformID s fd = f.DeviceOnrampTopic s fd ∧
    (FabricInitialize root node platform role).ActorID = node ∧
    (FabricInitialize root node platform role).ActorPlatformID = platform ∧
    (FabricInitialize root node platform role).CtrlOfframpTopic n t p s fd =
      root ++ "/" ++ n ++ "/$feeds/$offramp/" ++ node ++ "/" ++ platform ++ "/" ++ t ++ "/"
        ++ p ++ "/" ++ s ++ "/" ++ fd :=
  ⟨rfl, rfl, rfl, rfl, rfl⟩

/-! ## What the dispatch decision depends on -/

theorem onrampCalls_withMsg (m : MqttFabric) (a b c d p1 p2 : String) :
    onrampCalls m a b c d p2 = (onrampCalls m a b c d p1).map (Call.withMsg p2) := by
  unfold onrampCalls
  split
  · split_ifs <;> simp [Call.withMsg]
  · simp

theorem offrampCalls_withMsg (m : MqttFabric) (a b c d e f g p1 p2 : String) :
    offrampCalls m a b c d e f g p2 = (offrampCalls m a b c d e f g p1).map (Call.withMsg p2) := by
  unfold offrampCalls
  split
  · split_ifs <;> simp [Call.withMsg]
  · simp

theorem onrampCalls_once (m : MqttFabric) (a b c d p : String) :
    (onrampCalls m a b c d p).length ≤ 1 ∧ ∀ x ∈ onrampCalls m a b c d p, x.msg = p := by
  unfold onrampCalls
  split
  · split_ifs <;> simp [Call.msg]
  · simp

theorem offrampCalls_once (m : MqttFabric) (a b c d e f g p : String) :
    (offrampCalls m a b c d e f g p).length ≤ 1 ∧
      ∀ x ∈ offrampCalls m a b c d e f g p, x.msg = p := by
  unfold offrampCalls
  split
  · split_ifs <;> simp [Call.msg]
  · simp

theorem onrampCalls_any (m : MqttFabric) (n a b c p : String) :
    (onrampCalls m n a b c p).any Call.isOnramp =
      (m.OnOnramp.isSome &&
        (decide (m.F.ClassType = CONTROLLER) ||
          (decide (m.F.ClassType = DEVICE) && decide (some n ≠ some m.F.NodeName)))) := by
  unfold onrampCalls
  cases m.OnOnramp with
  | none => simp
  | some h =>
    have hcd : (DEVICE : Int) ≠ CONTROLLER := by decide
    by_cases hc : m.F.ClassType = CONTROLLER
    · simp [hc, Call.isOnramp]
    · by_cases hd : m.F.ClassType = DEVICE
      · by_cases hn : n = m.F.NodeName <;> simp [hc, hd, hn, hcd, Call.isOnramp]
      · simp [hc, hd, Call.isOnramp]

theorem offrampCalls_any (m : MqttFabric) (n a b c d e f p : String) :
    (offrampCalls m n a b c d e f p).any Call.isOfframp =
      (m.OnOfframp.isSome &&
        (decide (m.F.ClassType = DEVICE) ||
          (decide (m.F.ClassType = CONTROLLER) && decide (some n ≠ some m.F.NodeName)))) := by
  unfold offrampCalls
  cases m.OnOfframp with
  | none => simp
  | some h =>
    have hcd : (CONTROLLER : Int) ≠ DEVICE := by decide
    by_cases hd : m.F.ClassType = DEVICE
    · simp [hd, Call.isOfframp]
    · by_cases hc : m.F.ClassType = CONTROLLER
      · by_cases hn : n = m.F.NodeName <;> simp [hc, hd, hn, hcd, Call.isOfframp]
      · simp [hc, hd, Call.isOfframp]

/-- The two dispatch decisions of the handler, in closed form. -/
theorem onMessage_decision (m : MqttFabric) (topic payload : String) :
    (onMessage m topic payload).invokesOnramp =
      onrampDecision m.OnOnramp.isSome m.F.ClassType m.F.NodeName (Split topic '/').length
        (Split topic '/')[1]? (Split topic '/')[2]? (Split topic '/')[3]? ∧
    (onMessage m topic payload).invokesOfframp =
      offrampDecision m.OnOfframp.isSome m.F.ClassType m.F.NodeName (Split topic '/').length
        (Split topic '/')[1]? (Split topic '/')[2]? (Split topic '/')[3]? := by
  rcases onMessageBody_cases m topic payload with
    ⟨hl, e⟩ | ⟨h2, hl, e⟩ | ⟨t0, t1, t3, t4, t5, t6, rest, hs, e⟩ |
    ⟨t0, t1, t4, t5, t6, rest, hs, e⟩ | ⟨t0, t1, t4, t5, t6, t7, t8, t9, rest, hs, e⟩ |
    ⟨h2, hon, hoff, e⟩ | ⟨t2, h2, hc, hf, e⟩
  · have h2 : (Split topic '/')[2]? = none := by
      rw [List.getElem?_eq_none_iff]
      omega
    rw [onMessage_of_fault m topic payload e]
    simp [onrampDecision, offrampDecision, Outcome.invokesOnramp, Outcome.invokesOfframp, h2]
  · rw [onMessage_of_fault m topic payload e]
    simp [onrampDecision, offrampDecision, Outcome.invokesOnramp, Outcome.invokesOfframp, h2]
  · rw [onMessage_of_body m topic payload _ e]
    simp [onrampDecision, offrampDecision, Outcome.invokesOnramp, Outcome.invokesOfframp, hs]
  · rw [onMessage_of_body m topic payload _ e]
    simp only [Outcome.invokesOnramp, Outcome.invokesOfframp, onrampCalls_any,
      onrampCalls_not_offramp]
    simp [onrampDecision, offrampDecision, hs]
  · rw [onMessage_of_body m topic payload _ e]
    simp only [Outcome.invokesOnramp, Outcome.invokesOfframp, offrampCalls_any,
      offrampCalls_not_onramp]
    simp [onrampDecision, offrampDecision, hs]
  · rw [onMessage_of_body m topic payload _ e]
    have hon' : (6 < (Split topic '/').length → (Split topic '/')[3]? ≠ some "$onramp") :=
      fun a b => hon ⟨a, b⟩
    have hoff' : (10 ≤ (Split topic '/').length → (Split topic '/')[3]? ≠ some "$offramp") :=
      fun a b => hoff ⟨a, b⟩
    simp only [onrampDecision, offrampDecision, Outcome.invokesOnramp, Outcome.invokesOfframp,
      List.any_nil]
    constructor
    · by_cases a : 6 < (Split topic '/').length
      · simp [a, hon' a]
      · simp [a]
    · by_cases a : 10 ≤ (Split topic '/').length
      · simp [a, hoff' a]
      · simp [a]
  · rw [onMessage_of_body m topic payload _ e]
    simp [onrampDecision, offrampDecision, Outcome.invokesOnramp, Outcome.invokesOfframp, h2, hf]

/-- The outcome for another payload: same arm, same invocations with the payload replaced. -/
theorem onMessage_payload (m : MqttFabric) (topic p1 p2 : String) :
    (onMessage m topic p2).branch = (onMessage m topic p1).branch ∧
    (onMessage m topic p2).calls = (onMessage m topic p1).calls.map (Call.withMsg p2) ∧
    (onMessage m topic p1).calls.length ≤ 1 ∧
    ∀ x ∈ (onMessage m topic p1).calls, x.msg = p1 := by
  rcases onMessageBody_cases m topic p1 with
    ⟨hl, e⟩ | ⟨h2, hl, e⟩ | ⟨t0, t1, t3, t4, t5, t6, rest, hs, e⟩ |
    ⟨t0, t1, t4, t5, t6, rest, hs, e⟩ | ⟨t0, t1, t4, t5, t6, t7, t8, t9, rest, hs, e⟩ |
    ⟨h2, hon, hoff, e⟩ | ⟨t2, h2, hc, hf, e⟩
  · rw [onMessage_of_fault m topic p1 e,
      onMessage_of_fault m topic p2 (onMessageBody_short m topic p2 hl)]
    simp
  · rw [onMessage_of_fault m topic p1 e,
      onMessage_of_fault m topic p2 (onMessageBody_commands_short m topic p2 h2 hl)]
    simp
  · rw [onMessage_of_body m topic p1 _ e, onMessage_of_body m topic p2 _
      (onMessageBody_commands m topic p2 t0 t1 t3 t4 t5 t6 rest hs)]
    simp
  · rw [onMessage_of_body m topic p1 _ e, onMessage_of_body m topic p2 _
      (onMessageBody_onramp m topic p2 t0 t1 t4 t5 t6 rest hs)]
    exact ⟨rfl, onrampCalls_withMsg m t1 t4 t5 t6 p1 p2,
      (onrampCalls_once m t1 t4 t5 t6 p1).1, (onrampCalls_once m t1 t4 t5 t6 p1).2⟩
  · rw [onMessage_of_body m topic p1 _ e, onMessage_of_body m topic p2 _
      (onMessageBody_offramp m topic p2 t0 t1 t4 t5 t6 t7 t8 t9 rest hs)]
    exact ⟨rfl, offrampCalls_withMsg m t1 t4 t5 t6 t7 t8 t9 p1 p2,
      (offrampCalls_once m t1 t4 t5 t6 t7 t8 t9 p1).1,
      (offrampCalls_once m t1 t4 t5 t6 t7 t8 t9 p1).2⟩
  · rw [onMessage_of_body m topic p1 _ e, onMessage_of_body m topic p2 _
      (onMessageBody_invalidFeed m topic p2 h2 hon hoff)]
    simp
  · rw [onMessage_of_body m topic p1 _ e, onMessage_of_body m topic p2 _
      (onMessageBody_other m topic p2 t2 h2 hc hf)]
    simp

/-- C23. The dispatch decision depends only on the topic shape, the nodename segment, the
role, the own `NodeName` and which callbacks are registered. For every topic and any two
payloads the handler reaches the same arm with the same extracted fields and makes the same
callback invocations, the payload apart; it makes at most one invocation per message and
hands it the payload unchanged. Whether the onramp (offramp) callback is invoked is a
function of whether one is registered, the role, the own name, the segment count and the
segments 1, 2 and 3 only: two node states that agree on the former and two topics that agree
on the latter (whatever their platform, actor, task, service and feed segments, and whatever
the payloads) get the same decision. -/
theorem dispatch_depends_only_on (m : MqttFabric) :
    (∀ topic p1 p2,
      (onMessage m topic p2).branch = (onMessage m topic p1).branch ∧
      (onMessage m topic p2).calls = (onMessage m topic p1).calls.map (Call.withMsg p2)) ∧
    (∀ topic p,
      (onMessage m topic p).calls.length ≤ 1 ∧ ∀ x ∈ (onMessage m topic p).calls, x.msg = p) ∧
    (∀ topic p,
      (onMessage m topic p).invokesOnramp =
        onrampDecision m.OnOnramp.isSome m.F.ClassType m.F.NodeName (Split topic '/').length
          (Split topic '/')[1]? (Split topic '/')[2]? (Split topic '/')[3]? ∧
      (onMessage m topic p).invokesOfframp =
        offrampDecision m.OnOfframp.isSome m.F.ClassType m.F.NodeName
          (Split topic '/').length
          (Split topic '/')[1]? (Split topic '/')[2]? (Split topic '/')[3]?) ∧
    (∀ (m' : MqttFabric) topic topic' p p',
      m'.F.ClassType = m.F.ClassType → m'.F.NodeName = m.F.NodeName →
      m'.OnOnramp.isSome = m.OnOnramp.isSome → m'.OnOfframp.isSome = m.OnOfframp.isSome →
      (Split topic' '/').length = (Split topic '/').length →
      (Split topic' '/')[1]? = (Split topic '/')[1]? →
      (Split topic' '/')[2]? = (Split topic '/')[2]? →
      (Split topic' '/')[3]? = (Split topic '/')[3]? →
      (onMessage m' topic' p').invokesOnramp = (onMessage m topic p).invokesOnramp ∧
      (onMessage m' topic' p').invokesOfframp = (onMessage m topic p).invokesOfframp) := by
  refine ⟨fun topic p1 p2 => ?_, fun topic p => ?_, fun topic p => onMessage_decision m topic p,
    ?_⟩
  · exact ⟨(onMessage_payload m topic p1 p2).1, (onMessage_payload m topic p1 p2).2.1⟩
  · exact ⟨(onMessage_payload m topic p p).2.2.1, (onMessage_payload m topic p p).2.2.2⟩
  · intro m' topic topic' p p' hrole hname hon hoff hlen h1 h2 h3
    rw [(onMessage_decision m' topic' p').1, (onMessage_decision m' topic' p').2,
      (onMessage_decision m topic p).1, (onMessage_decision m topic p).2,
      hrole, hname, hon, hoff, hlen, h1, h2, h3]
    exact ⟨rfl, rfl⟩

theorem dispatch_depends_only_on_witness :
    (onMessage ⟨FabricInitialize "home" "kitchen" "esp" DEVICE, none, none, some 7, none⟩
        "home/garage/$feeds/$onramp/avr/digital/door" "1").invokesOnramp =
      (onMessage ⟨FabricInitialize "home" "kitchen" "esp" DEVICE, none, none, some 1, none⟩
        "home/garage/$feeds/$onramp/esp/text/temp" "21").invokesOnramp ∧
    (onMessage ⟨FabricInitialize "home" "kitchen" "esp" DEVICE, none, none, some 7, none⟩
        "home/garage/$feeds/$onramp/avr/digital/door" "1").invokesOfframp =
      (onMessage ⟨FabricInitialize "home" "kitchen" "esp" DEVICE, none, none, some 1, none⟩
        "home/garage/$feeds/$onramp/esp/text/temp" "21").invokesOfframp :=
  (dispatch_depends_only_on
    ⟨FabricInitialize "home" "kitchen" "esp" DEVICE, none, none, some 1, none⟩).2.2.2
    ⟨FabricInitialize "home" "kitchen" "esp" DEVICE, none, none, some 7, none⟩
    "home/garage/$feeds/$onramp/esp/text/temp" "home/garage/$feeds/$onramp/avr/digital/door"
    "21" "1" rfl rfl rfl rfl (by decide) (by decide) (by decide) (by decide)

end mqttfabric
